import Mathlib

/-!
Verification of the OpenAvnu MAAP protocol engine.

The repository source under scrutiny is `src/daemons/maap/common/maap.h`,
which declares the MAAP data model (states, ranges, client, notification
queue) and the protocol constants of IEEE 1722-2016 Annex B.  The engine
behaviour behind those declarations (`maap.c`, `intervals.c`,
`maap_timer.c`) is not part of the source tree given here, so the
behavioural definitions below are modelled from the specification
(`spec.md` sections 3, 4 and 7); every such definition says so in its doc
comment.  Constants, state names and structure fields are taken directly
from `maap.h`.

Modelling conventions:
* machine integers become `Nat`/`Int` (ids and C return codes are `Int`,
  addresses, times and counters are `Nat`);
* the interval tree is a list of live `Range` records;
* the timer queue is a list of range ids kept sorted by `next_act_time`;
* randomness is passed in explicitly (`rnd`, `tries`) as the raw draws of
  the random source, reduced with `% variation` as the spec's
  `rnd(base, variation)`;
* platform adapters (`Timer`, `Net`) are elided: sends are recorded in a
  `sent` list, `now` is an explicit argument.
-/

/-- Number of allowed probes, from maap.h (IEEE 1722-2016 Table B.8). -/
def MAAP_PROBE_RETRANSMITS : Nat := 3

/-- Probe interval minimum time in milliseconds, from maap.h. -/
def MAAP_PROBE_INTERVAL_BASE : Nat := 500

/-- Probe interval additional time in milliseconds, from maap.h. -/
def MAAP_PROBE_INTERVAL_VARIATION : Nat := 100

/-- Announce interval minimum time in milliseconds, from maap.h. -/
def MAAP_ANNOUNCE_INTERVAL_BASE : Nat := 30000

/-- Announce interval additional time in milliseconds, from maap.h. -/
def MAAP_ANNOUNCE_INTERVAL_VARIATION : Nat := 2000

/-- MAAP multicast address 91:E0:F0:00:FF:00, from maap.h. -/
def MAAP_DEST_MAC : Nat := 0x91E0F000FF00

/-- MAAP dynamic allocation pool base address, from maap.h. -/
def MAAP_DYNAMIC_POOL_BASE : Nat := 0x91E0F0000000

/-- MAAP dynamic allocation pool size, from maap.h. -/
def MAAP_DYNAMIC_POOL_SIZE : Nat := 0xFE00

/-- AVTP Ethertype, from maap.h. -/
def MAAP_TYPE : Nat := 0x22F0

/-- AVTP MAAP subtype, from maap.h. -/
def MAAP_SUBTYPE : Nat := 0xFE

/-- Number of bytes for a raw MAAP Ethernet packet, from maap.h. -/
def MAAP_PKT_SIZE : Nat := 42

/-- Modelled from the spec: message type 1 = Probe (spec section 4.2). -/
def MAAP_PROBE : Nat := 1

/-- Modelled from the spec: message type 2 = Defend (spec section 4.2). -/
def MAAP_DEFEND : Nat := 2

/-- Modelled from the spec: message type 3 = Announce (spec section 4.2). -/
def MAAP_ANNOUNCE : Nat := 3

/-- MAAP Range states, from the `Maap_State` enum of maap.h. -/
inductive Maap_State where
  | MAAP_STATE_INVALID
  | MAAP_STATE_PROBING
  | MAAP_STATE_DEFENDING
  | MAAP_STATE_RELEASED
deriving DecidableEq

/-- Modelled from the spec: the notification kinds of spec section 4.6 and
section 7 that the engine emits (the C `Maap_Notify` payload lives in
`maap_iface.h`, which is not in the source tree).  Each carries the id,
start address and count where relevant. -/
inductive Maap_Notify where
  | MAAP_NOTIFY_INITIALIZED
  | MAAP_NOTIFY_INIT_FAILED
  | MAAP_NOTIFY_ACQUIRED (id : Int) (start : Nat) (count : Nat)
  | MAAP_NOTIFY_RESERVE_FAILED
  | MAAP_NOTIFY_RELEASED (id : Int) (start : Nat) (count : Nat)
  | MAAP_NOTIFY_RELEASE_FAILED (id : Int)
  | MAAP_NOTIFY_YIELDED (id : Int) (start : Nat) (count : Nat)
deriving DecidableEq

/-- The per-claimed-range record, from `struct range` of maap.h.  The
`Interval` pointer becomes the pair `interval_low`/`interval_high`
(inclusive bounds, spec section 3); the `next_timer` link is represented
by membership in the client's timer queue; the transient `overlapping`
flag is internal to one packet dispatch and is not part of the state. -/
structure Range where
  id : Int
  state : Maap_State
  counter : Nat
  next_act_time : Nat
  interval_low : Nat
  interval_high : Nat
  sender : Nat
deriving DecidableEq

/-- Modelled from the spec: the decoded 42-byte MAAP PDU of spec
section 4.2 (the codec lives in the absent `maap_packet.c`). -/
structure MaapPdu where
  dest_mac : Nat
  src_mac : Nat
  message_type : Nat
  stream_id : Nat
  req_start : Nat
  req_count : Nat
  conflict_start : Nat
  conflict_count : Nat
deriving DecidableEq

/-- The engine instance, from the `Maap_Client` structure of maap.h.
The `Interval *ranges` tree and the `Range *timer_queue` linked list both
thread through the same `Range` records; here `ranges` is the
authoritative list of live ranges and `timer_queue` holds their ids in
ascending `next_act_time` order.  The `Timer`/`Net` adapter pointers are
elided; outgoing frames are recorded in `sent`. -/
structure Maap_Client where
  dest_mac : Nat
  src_mac : Nat
  address_base : Nat
  range_len : Nat
  ranges : List Range
  timer_queue : List Int
  maxid : Int
  notifies : List (Nat × Maap_Notify)
  initialized : Bool
  sent : List MaapPdu
deriving DecidableEq

/-- Two inclusive intervals overlap (spec section 3: two intervals
conflict iff they overlap). -/
def overlaps (lo1 hi1 lo2 hi2 : Nat) : Bool :=
  decide (lo1 ≤ hi2) && decide (lo2 ≤ hi1)

/-- The ids of a list of ranges. -/
def idsOf (rs : List Range) : List Int := rs.map (fun r => r.id)

/-- The `next_act_time` of the range with the given id (0 if absent). -/
def rangeTime (rs : List Range) (i : Int) : Nat :=
  match rs.find? (fun r => decide (r.id = i)) with
  | some r => r.next_act_time
  | none => 0

/-- Insert an id into a key-sorted list, after all entries with a key
less than or equal to its own (spec section 4.3: ascending order, ties
broken by insertion order). -/
def insertSorted (f : Int → Nat) (i : Int) : List Int → List Int
  | [] => [i]
  | x :: xs => if f i < f x then i :: x :: xs else x :: insertSorted f i xs

/-- Does the interval `[lo, hi]` overlap any stored range interval
(spec section 4.1)? -/
def range_conflicts (lo hi : Nat) (rs : List Range) : Bool :=
  rs.any (fun r => overlaps lo hi r.interval_low r.interval_high)

/-- Modelled from the spec: `find_free` of the absent interval allocator
(spec section 4.1).  Each element of `tries` is one raw draw of the
random source; the draw is reduced to an offset in
`[base, base + poolLen - length]`, and the first candidate disjoint from
every stored interval is returned.  The number of tries is bounded by the
length of `tries`. -/
def find_free (base poolLen length : Nat) (rs : List Range) : List Nat → Option Nat
  | [] => none
  | t :: ts =>
    if length = 0 ∨ poolLen < length then none
    else
      let off := base + t % (poolLen - length + 1)
      if range_conflicts off (off + length - 1) rs then
        find_free base poolLen length rs ts
      else some off

/-- Add a notification to the end of the notifications queue, from the
`add_notify` declaration of maap.h (spec section 4.6: FIFO). -/
def add_notify (mc : Maap_Client) (sender : Nat) (mn : Maap_Notify) : Maap_Client :=
  { mc with notifies := mc.notifies ++ [(sender, mn)] }

/-- Get the next notification from the queue, from the `get_notify`
declaration of maap.h: returns 1 and the head when one is queued,
0 otherwise. -/
def get_notify (mc : Maap_Client) : Maap_Client × Int × Option (Nat × Maap_Notify) :=
  match mc.notifies with
  | [] => (mc, 0, none)
  | x :: rest => ({ mc with notifies := rest }, 1, some x)

/-- A fresh, uninitialized engine bound to a source MAC. -/
def initial_client (src : Nat) : Maap_Client :=
  { dest_mac := MAAP_DEST_MAC, src_mac := src, address_base := 0, range_len := 0,
    ranges := [], timer_queue := [], maxid := 0, notifies := [],
    initialized := false, sent := [] }

/-- Modelled from the spec: `maap_init_client` (maap.h line 100, spec
section 4.5).  Reinitialization without a deinit fails with
AlreadyInitialized (-1, INIT_FAILED notification); on success the
configuration is set and an INITIALIZED notification is enqueued. -/
def maap_init_client (mc : Maap_Client) (sender : Nat)
    (range_address_base : Nat) (range_len : Nat) : Maap_Client × Int :=
  if mc.initialized then
    (add_notify mc sender .MAAP_NOTIFY_INIT_FAILED, -1)
  else
    ({ mc with address_base := range_address_base, range_len := range_len,
               ranges := [], timer_queue := [], maxid := 0, initialized := true,
               notifies := mc.notifies ++ [(sender, .MAAP_NOTIFY_INITIALIZED)] }, 0)

/-- Modelled from the spec: `maap_deinit_client` (maap.h line 107)
releases everything and clears the initialized flag. -/
def maap_deinit_client (mc : Maap_Client) : Maap_Client :=
  { mc with ranges := [], timer_queue := [], maxid := 0, initialized := false }

/-- Number of addresses of a range (inclusive interval). -/
def range_count (r : Range) : Nat := r.interval_high - r.interval_low + 1

/-- Modelled from the spec: build an outgoing MAAP PDU for a local range
(spec section 4.2; the stream id is the source MAC zero-extended). -/
def mkPacket (mc : Maap_Client) (mtype : Nat) (r : Range) (cs cc : Nat) : MaapPdu :=
  { dest_mac := mc.dest_mac, src_mac := mc.src_mac, message_type := mtype,
    stream_id := mc.src_mac, req_start := r.interval_low,
    req_count := range_count r, conflict_start := cs, conflict_count := cc }

/-- Modelled from the spec: `maap_reserve_range` (maap.h line 122, spec
sections 4.4 and 4.5).  `length` must lie in [1, 0xFFFF]; `find_free`
searches the configured pool; on success a Range in Probing is created
with counter `MAAP_PROBE_RETRANSMITS`, scheduled `rdelay mod
MAAP_PROBE_INTERVAL_VARIATION` ms from now, a Probe is sent and the new
positive id is returned; on failure -1 is returned and a RESERVE_FAILED
notification is enqueued. -/
def maap_reserve_range (mc : Maap_Client) (sender : Nat) (length : Nat)
    (now : Nat) (tries : List Nat) (rdelay : Nat) : Maap_Client × Int :=
  if !mc.initialized then
    (add_notify mc sender .MAAP_NOTIFY_RESERVE_FAILED, -1)
  else if length < 1 ∨ 0xFFFF < length then
    (add_notify mc sender .MAAP_NOTIFY_RESERVE_FAILED, -1)
  else
    match find_free mc.address_base mc.range_len length mc.ranges tries with
    | none => (add_notify mc sender .MAAP_NOTIFY_RESERVE_FAILED, -1)
    | some off =>
      let newid := mc.maxid + 1
      let r : Range :=
        { id := newid, state := .MAAP_STATE_PROBING,
          counter := MAAP_PROBE_RETRANSMITS,
          next_act_time := now + rdelay % MAAP_PROBE_INTERVAL_VARIATION,
          interval_low := off, interval_high := off + length - 1,
          sender := sender }
      let ranges2 := r :: mc.ranges
      ({ mc with ranges := ranges2, maxid := newid,
                 timer_queue := insertSorted (rangeTime ranges2) newid mc.timer_queue,
                 sent := mc.sent ++ [mkPacket mc MAAP_PROBE r 0 0] }, newid)

/-- Modelled from the spec: `maap_release_range` (maap.h line 136, spec
sections 4.4, 4.5 and 5).  If the id names a live range owned by the
sender it is removed from the interval tree and the timer queue (the
Released state: the spec removes Released ranges from all structures in
the same call that enqueues their notification) and a RELEASED
notification is emitted; otherwise RELEASE_FAILED is emitted and -1
returned. -/
def maap_release_range (mc : Maap_Client) (sender : Nat) (id : Int) :
    Maap_Client × Int :=
  match mc.ranges.find? (fun r => decide (r.id = id)) with
  | some r =>
    if r.sender = sender then
      ({ mc with
           ranges := mc.ranges.filter (fun x => !decide (x.id = id)),
           timer_queue := mc.timer_queue.filter (fun i => !decide (i = id)),
           notifies := mc.notifies ++
             [(sender, .MAAP_NOTIFY_RELEASED id r.interval_low (range_count r))] }, 0)
    else (add_notify mc sender (.MAAP_NOTIFY_RELEASE_FAILED id), -1)
  | none => (add_notify mc sender (.MAAP_NOTIFY_RELEASE_FAILED id), -1)

/-- Byte `i` of a raw packet buffer. -/
def get_byte (s : List Nat) (i : Nat) : Nat := (s.getD i 0) % 256

/-- Big-endian read of `n` bytes starting at offset `off`. -/
def read_be (s : List Nat) (off : Nat) : Nat → Nat
  | 0 => 0
  | n + 1 => read_be s off n * 256 + get_byte s (off + n)

/-- The EtherType field of a raw Ethernet frame (bytes 12-13). -/
def pkt_ethertype (s : List Nat) : Nat := read_be s 12 2

/-- The AVTP subtype field of a raw frame (byte 14). -/
def pkt_subtype (s : List Nat) : Nat := get_byte s 14

/-- Modelled from the spec: decode of the 42-byte MAAP PDU layout of
spec section 4.2 (the codec source is absent). -/
def decodePdu (s : List Nat) : MaapPdu :=
  { dest_mac := read_be s 0 6, src_mac := read_be s 6 6,
    message_type := get_byte s 15 % 16, stream_id := read_be s 18 8,
    req_start := read_be s 26 6, req_count := read_be s 32 2,
    conflict_start := read_be s 34 6, conflict_count := read_be s 40 2 }

/-- Big-endian encoding of a value into `n` bytes. -/
def be_bytes (v : Nat) : Nat → List Nat
  | 0 => []
  | n + 1 => be_bytes (v / 256) n ++ [v % 256]

/-- Modelled from the spec: encode of the 42-byte MAAP PDU layout of
spec section 4.2 (SV = 0, version = 0, maap_version = 0,
maap_data_length = 16). -/
def encodePdu (p : MaapPdu) : List Nat :=
  be_bytes p.dest_mac 6 ++ be_bytes p.src_mac 6 ++ be_bytes MAAP_TYPE 2 ++
  [MAAP_SUBTYPE] ++ [p.message_type % 16] ++ [0x00, 0x10] ++
  be_bytes p.stream_id 8 ++ be_bytes p.req_start 6 ++ be_bytes p.req_count 2 ++
  be_bytes p.conflict_start 6 ++ be_bytes p.conflict_count 2

/-- Modelled from the spec: the sub-range an incoming PDU is matched
against.  Defend messages are matched by their conflict-range fields if
present, else the requested-range fields (spec section 4.5). -/
def pdu_eff (p : MaapPdu) : Nat × Nat :=
  if p.message_type = MAAP_DEFEND ∧ p.conflict_count ≠ 0 then
    (p.conflict_start, p.conflict_count)
  else (p.req_start, p.req_count)

/-- Does the effective range of an incoming PDU overlap a local range? -/
def range_overlaps_pdu (p : MaapPdu) (r : Range) : Bool :=
  decide ((pdu_eff p).2 ≠ 0) &&
  overlaps r.interval_low r.interval_high (pdu_eff p).1
    ((pdu_eff p).1 + (pdu_eff p).2 - 1)

/-- Modelled from the spec: does the local range lose its claim to the
incoming PDU (spec section 4.4)?  A Probing range yields to any
conflicting Probe, Defend or Announce; a Defending range yields to a
conflicting Defend, and to a conflicting Announce whose stream id is
numerically lower than ours (lower wins). -/
def range_yields (src : Nat) (p : MaapPdu) (r : Range) : Bool :=
  range_overlaps_pdu p r &&
  (match r.state with
   | .MAAP_STATE_PROBING =>
     decide (p.message_type = MAAP_PROBE) || decide (p.message_type = MAAP_DEFEND) ||
     decide (p.message_type = MAAP_ANNOUNCE)
   | .MAAP_STATE_DEFENDING =>
     decide (p.message_type = MAAP_DEFEND) ||
     (decide (p.message_type = MAAP_ANNOUNCE) && decide (p.stream_id < src))
   | _ => false)

/-- Modelled from the spec: does the local range answer the incoming PDU
with a Defend (spec section 4.4)?  A Defending range defends against a
conflicting Probe, and against a conflicting Announce whose stream id is
numerically higher than ours. -/
def range_defends (src : Nat) (p : MaapPdu) (r : Range) : Bool :=
  range_overlaps_pdu p r && decide (r.state = .MAAP_STATE_DEFENDING) &&
  (decide (p.message_type = MAAP_PROBE) ||
   (decide (p.message_type = MAAP_ANNOUNCE) && decide (src < p.stream_id)))

/-- Modelled from the spec: the Defend answer names the conflicting
sub-range (the intersection of our interval and the incoming range). -/
def mkDefend (mc : Maap_Client) (p : MaapPdu) (r : Range) : MaapPdu :=
  mkPacket mc MAAP_DEFEND r (max r.interval_low (pdu_eff p).1)
    (min r.interval_high ((pdu_eff p).1 + (pdu_eff p).2 - 1) -
      max r.interval_low (pdu_eff p).1 + 1)

/-- Modelled from the spec: `maap_handle_packet` (maap.h line 160, spec
sections 4.4 and 4.5).  Returns -1 for a buffer that is not a MAAP packet
(too short, wrong ethertype or wrong subtype) and 0 otherwise; a packet
from our own source MAC is ignored; otherwise every local range
overlapping the PDU's effective range is processed independently: losing
ranges are removed from the interval tree and timer queue with a YIELDED
notification, defended ranges answer with a Defend frame. -/
def maap_handle_packet (mc : Maap_Client) (stream : List Nat) (len : Nat) :
    Maap_Client × Int :=
  if !(decide (MAAP_PKT_SIZE ≤ len) && decide (pkt_ethertype stream = MAAP_TYPE) &&
       decide (pkt_subtype stream = MAAP_SUBTYPE)) then
    (mc, -1)
  else
    let p := decodePdu stream
    if p.src_mac = mc.src_mac then (mc, 0)
    else
      let yielded := mc.ranges.filter (range_yields mc.src_mac p)
      ({ mc with
           ranges := mc.ranges.filter (fun r => !(range_yields mc.src_mac p r)),
           timer_queue := mc.timer_queue.filter
             (fun i => !(decide (i ∈ idsOf yielded))),
           notifies := mc.notifies ++ yielded.map
             (fun r => (r.sender, .MAAP_NOTIFY_YIELDED r.id r.interval_low (range_count r))),
           sent := mc.sent ++
             (mc.ranges.filter (range_defends mc.src_mac p)).map (mkDefend mc p) }, 0)

/-- Modelled from the spec: one expired-head step of the timer handler
(spec section 4.4).  A Probing range with probes left sends a Probe,
decrements its counter and is rescheduled `MAAP_PROBE_INTERVAL_BASE +
rnd mod MAAP_PROBE_INTERVAL_VARIATION` ms later; a Probing range whose
counter reached 0 sends an Announce, transitions to Defending, is
rescheduled `MAAP_ANNOUNCE_INTERVAL_BASE + rnd mod
MAAP_ANNOUNCE_INTERVAL_VARIATION` ms later and an ACQUIRED notification
is enqueued; a Defending range sends an Announce and is rescheduled the
same way. -/
def timer_step (mc : Maap_Client) (now : Nat) (rnd : Nat) : Maap_Client :=
  match mc.timer_queue with
  | [] => mc
  | id :: rest =>
    match mc.ranges.find? (fun r => decide (r.id = id)) with
    | none => { mc with timer_queue := rest }
    | some rg =>
      if rg.next_act_time ≤ now then
        match rg.state with
        | .MAAP_STATE_PROBING =>
          if 0 < rg.counter then
            let rg2 := { rg with counter := rg.counter - 1,
                                 next_act_time := now + MAAP_PROBE_INTERVAL_BASE +
                                   rnd % MAAP_PROBE_INTERVAL_VARIATION }
            let ranges2 := mc.ranges.map (fun x => if x.id = id then rg2 else x)
            { mc with ranges := ranges2,
                      timer_queue := insertSorted (rangeTime ranges2) id rest,
                      sent := mc.sent ++ [mkPacket mc MAAP_PROBE rg2 0 0] }
          else
            let rg2 := { rg with state := .MAAP_STATE_DEFENDING, counter := 0,
                                 next_act_time := now + MAAP_ANNOUNCE_INTERVAL_BASE +
                                   rnd % MAAP_ANNOUNCE_INTERVAL_VARIATION }
            let ranges2 := mc.ranges.map (fun x => if x.id = id then rg2 else x)
            { mc with ranges := ranges2,
                      timer_queue := insertSorted (rangeTime ranges2) id rest,
                      sent := mc.sent ++ [mkPacket mc MAAP_ANNOUNCE rg2 0 0],
                      notifies := mc.notifies ++
                        [(rg.sender, .MAAP_NOTIFY_ACQUIRED rg.id rg.interval_low (range_count rg))] }
        | .MAAP_STATE_DEFENDING =>
          let rg2 := { rg with next_act_time := now + MAAP_ANNOUNCE_INTERVAL_BASE +
                                 rnd % MAAP_ANNOUNCE_INTERVAL_VARIATION }
          let ranges2 := mc.ranges.map (fun x => if x.id = id then rg2 else x)
          { mc with ranges := ranges2,
                    timer_queue := insertSorted (rangeTime ranges2) id rest,
                    sent := mc.sent ++ [mkPacket mc MAAP_ANNOUNCE rg2 0 0] }
        | _ =>
          { mc with ranges := mc.ranges.filter (fun x => !decide (x.id = id)),
                    timer_queue := rest }
      else mc

/-- Modelled from the spec: the timer handler loop, which pops every
expired head of the queue (spec section 4.5).  One raw random draw is
consumed per processed range; the draw list bounds the number of
iterations (every reschedule is at least `MAAP_PROBE_INTERVAL_BASE` ms in
the future, so no range is processed twice in one call). -/
def maap_handle_timer_aux (now : Nat) : List Nat → Maap_Client → Maap_Client
  | [], mc => mc
  | rnd :: rs, mc =>
    match mc.timer_queue with
    | [] => mc
    | id :: _ =>
      if rangeTime mc.ranges id ≤ now then
        maap_handle_timer_aux now rs (timer_step mc now rnd)
      else mc

/-- Modelled from the spec: `maap_handle_timer` (maap.h line 169). -/
def maap_handle_timer (mc : Maap_Client) (now : Nat) (rands : List Nat) :
    Maap_Client × Int :=
  (maap_handle_timer_aux now rands mc, 0)

/-- Modelled from the spec: the very large sentinel returned when no
timer is waiting (maap.h line 176 promises only a very large value; the
largest signed 64-bit value is used). -/
def MAAP_DELAY_SENTINEL : Int := 0x7FFFFFFFFFFFFFFF

/-- Modelled from the spec: `maap_get_delay_to_next_timer` (maap.h
line 178).  Times are in milliseconds, the result in nanoseconds. -/
def maap_get_delay_to_next_timer (mc : Maap_Client) (now : Nat) : Int :=
  match mc.timer_queue with
  | [] => MAAP_DELAY_SENTINEL
  | id :: _ => ((rangeTime mc.ranges id - now) * 1000000 : Nat)

/-- Enqueue a whole list of notifications in order. -/
def enqueue_all (mc : Maap_Client) : List (Nat × Maap_Notify) → Maap_Client
  | [] => mc
  | x :: xs => enqueue_all (add_notify mc x.1 x.2) xs

/-- Dequeue up to `fuel` notifications in order. -/
def drainAll : Nat → Maap_Client → List (Nat × Maap_Notify)
  | 0, _ => []
  | fuel + 1, mc =>
    match (get_notify mc).2.2 with
    | none => []
    | some x => x :: drainAll fuel (get_notify mc).1

/-- One engine step: any of the public operations of maap.h applied with
arbitrary arguments. -/
inductive Step : Maap_Client → Maap_Client → Prop where
  | init (mc : Maap_Client) (sender base len : Nat) :
      Step mc (maap_init_client mc sender base len).1
  | reserve (mc : Maap_Client) (sender length now : Nat) (tries : List Nat) (rdelay : Nat) :
      Step mc (maap_reserve_range mc sender length now tries rdelay).1
  | release (mc : Maap_Client) (sender : Nat) (id : Int) :
      Step mc (maap_release_range mc sender id).1
  | packet (mc : Maap_Client) (stream : List Nat) (len : Nat) :
      Step mc (maap_handle_packet mc stream len).1
  | timer (mc : Maap_Client) (now : Nat) (rands : List Nat) :
      Step mc (maap_handle_timer mc now rands).1
  | notify (mc : Maap_Client) :
      Step mc (get_notify mc).1

/-- The reachable engine states: everything obtainable from a fresh
client by engine steps. -/
inductive Reachable : Maap_Client → Prop where
  | init (src : Nat) : Reachable (initial_client src)
  | step {mc mc' : Maap_Client} : Reachable mc → Step mc mc' → Reachable mc'

/-- The engine invariant (spec section 3 and section 8): live ranges have
positive, distinct ids bounded by `maxid`, are in Probing or Defending,
have well-formed pairwise-disjoint intervals; the timer queue is a
permutation of the live ids sorted by `next_act_time`; an uninitialized
client is empty. -/
structure ClientInv (mc : Maap_Client) : Prop where
  ids_nodup : (idsOf mc.ranges).Nodup
  ids_pos : ∀ r ∈ mc.ranges, 0 < r.id
  ids_le : ∀ r ∈ mc.ranges, r.id ≤ mc.maxid
  maxid_nonneg : 0 ≤ mc.maxid
  states_pd : ∀ r ∈ mc.ranges,
    r.state = .MAAP_STATE_PROBING ∨ r.state = .MAAP_STATE_DEFENDING
  lo_le_hi : ∀ r ∈ mc.ranges, r.interval_low ≤ r.interval_high
  queue_perm : List.Perm mc.timer_queue (idsOf mc.ranges)
  queue_sorted : mc.timer_queue.Pairwise
    (fun a b => rangeTime mc.ranges a ≤ rangeTime mc.ranges b)
  disjoint : mc.ranges.Pairwise
    (fun a b => overlaps a.interval_low a.interval_high b.interval_low b.interval_high = false)
  uninit_empty : mc.initialized = false → mc.ranges = [] ∧ mc.maxid = 0

/-! ### Basic list helper lemmas -/

theorem overlaps_comm (a b c d : Nat) : overlaps a b c d = overlaps c d a b := by
  simp [overlaps, Bool.and_comm]

theorem mem_idsOf {rs : List Range} {i : Int} :
    i ∈ idsOf rs ↔ ∃ r ∈ rs, r.id = i := by
  simp [idsOf, List.mem_map]

theorem idsOf_append (l1 l2 : List Range) : idsOf (l1 ++ l2) = idsOf l1 ++ idsOf l2 := by
  simp [idsOf]

theorem find?_eq_some_of_mem_ids {rs : List Range} {i : Int} (h : i ∈ idsOf rs) :
    ∃ r, rs.find? (fun r => decide (r.id = i)) = some r ∧ r.id = i ∧ r ∈ rs := by
  induction rs with
  | nil => simp [idsOf] at h
  | cons a tl ih =>
    by_cases ha : a.id = i
    · exact ⟨a, by simp [List.find?_cons, ha], ha, List.mem_cons_self a tl⟩
    · have : i ∈ idsOf tl := by
        rcases mem_idsOf.mp h with ⟨r, hr, hri⟩
        rcases List.mem_cons.mp hr with h1 | h1
        · exact absurd (h1 ▸ hri) ha
        · exact mem_idsOf.mpr ⟨r, h1, hri⟩
      rcases ih this with ⟨r, h1, h2, h3⟩
      exact ⟨r, by simp [List.find?_cons, ha, h1], h2, List.mem_cons_of_mem a h3⟩

theorem find?_id_spec {rs : List Range} {i : Int} {r : Range}
    (h : rs.find? (fun r => decide (r.id = i)) = some r) : r.id = i ∧ r ∈ rs := by
  have h1 := List.find?_some h
  have h2 := List.mem_of_find?_eq_some h
  exact ⟨of_decide_eq_true h1, h2⟩

theorem rangeTime_cons_ne {r0 : Range} {rs : List Range} {i : Int} (h : r0.id ≠ i) :
    rangeTime (r0 :: rs) i = rangeTime rs i := by
  simp [rangeTime, List.find?_cons, h]

theorem rangeTime_of_find? {rs : List Range} {i : Int} {r : Range}
    (h : rs.find? (fun r => decide (r.id = i)) = some r) :
    rangeTime rs i = r.next_act_time := by
  simp [rangeTime, h]

theorem idsOf_filter_through (rs : List Range) (q : Int → Bool) :
    idsOf (rs.filter (fun r => q r.id)) = (idsOf rs).filter q := by
  induction rs with
  | nil => simp [idsOf]
  | cons a tl ih =>
    by_cases ha : q a.id
    · simp [idsOf, List.filter_cons, ha] at ih ⊢; exact ih
    · simp only [List.filter_cons, ha, Bool.false_eq_true, if_neg, idsOf, List.map_cons] at ih ⊢
      simp [ha, ih]

theorem idsOf_update {rs : List Range} {id : Int} {rg2 : Range} (hid : rg2.id = id) :
    idsOf (rs.map (fun x => if x.id = id then rg2 else x)) = idsOf rs := by
  induction rs with
  | nil => simp [idsOf]
  | cons a tl ih =>
    by_cases ha : a.id = id
    · simp [idsOf, ha, hid] at ih ⊢; exact ih
    · simp [idsOf, ha] at ih ⊢; exact ih

theorem rangeTime_update_ne {rs : List Range} {id : Int} {rg2 : Range} {i : Int}
    (hid : rg2.id = id) (h : i ≠ id) :
    rangeTime (rs.map (fun x => if x.id = id then rg2 else x)) i = rangeTime rs i := by
  induction rs with
  | nil => simp [rangeTime]
  | cons a tl ih =>
    simp only [List.map_cons]
    by_cases ha : a.id = id
    · have h1 : rg2.id ≠ i := by rw [hid]; exact Ne.symm h
      have h2 : a.id ≠ i := by rw [ha]; exact Ne.symm h
      rw [if_pos ha, rangeTime_cons_ne h1, rangeTime_cons_ne h2]
      exact ih
    · rw [if_neg ha]
      by_cases hai : a.id = i
      · simp [rangeTime, List.find?_cons, hai]
      · rw [rangeTime_cons_ne hai, rangeTime_cons_ne hai]; exact ih

theorem find?_update_self {rs : List Range} {id : Int} {rg rg2 : Range}
    (h : rs.find? (fun x => decide (x.id = id)) = some rg) (hid : rg2.id = id) :
    (rs.map (fun x => if x.id = id then rg2 else x)).find?
      (fun x => decide (x.id = id)) = some rg2 := by
  induction rs with
  | nil => simp at h
  | cons a tl ih =>
    simp only [List.map_cons]
    by_cases ha : a.id = id
    · rw [if_pos ha]
      simp [List.find?_cons, hid]
    · rw [if_neg ha]
      rw [List.find?_cons_of_neg _ (by simp [ha])] at h
      rw [List.find?_cons_of_neg _ (by simp [ha])]
      exact ih h

theorem find?_unique_of_nodup {rs : List Range} {i : Int} {rg a : Range}
    (hnd : (idsOf rs).Nodup)
    (h : rs.find? (fun x => decide (x.id = i)) = some rg)
    (ha : a ∈ rs) (hai : a.id = i) : a = rg := by
  induction rs with
  | nil => simp at h
  | cons b tl ih =>
    have hnd' : (idsOf tl).Nodup := (List.nodup_cons.mp (by simpa [idsOf] using hnd)).2
    have hbndup : b.id ∉ idsOf tl := (List.nodup_cons.mp (by simpa [idsOf] using hnd)).1
    by_cases hb : b.id = i
    · simp only [List.find?_cons, decide_eq_true_eq, hb, if_pos] at h
      rcases List.mem_cons.mp ha with h1 | h1
      · rw [h1]; exact Option.some_injective _ h
      · exfalso; exact hbndup (hb ▸ hai ▸ mem_idsOf.mpr ⟨a, h1, rfl⟩)
    · simp only [List.find?_cons, decide_eq_true_eq, hb, if_neg, not_false_iff] at h
      rcases List.mem_cons.mp ha with h1 | h1
      · exact absurd (h1 ▸ hai) hb
      · exact ih hnd' h h1

theorem rangeTime_sublist {rs' rs : List Range} {i : Int}
    (hsub : List.Sublist rs' rs) (hnd : (idsOf rs).Nodup) (hi : i ∈ idsOf rs') :
    rangeTime rs' i = rangeTime rs i := by
  induction hsub with
  | slnil => rfl
  | cons a hs ih =>
    rename_i l1 l2
    have hnd' : (idsOf l2).Nodup := (List.nodup_cons.mp (by simpa [idsOf] using hnd)).2
    have hand : a.id ∉ idsOf l2 := (List.nodup_cons.mp (by simpa [idsOf] using hnd)).1
    have hne : a.id ≠ i := by
      intro hc
      exact hand (hc ▸ (List.Sublist.subset (by simpa [idsOf] using hs.map (fun r => r.id)) hi))
    rw [rangeTime_cons_ne hne]
    exact ih hnd' hi
  | cons₂ a hs ih =>
    rename_i l1 l2
    have hnd' : (idsOf l2).Nodup := (List.nodup_cons.mp (by simpa [idsOf] using hnd)).2
    by_cases ha : a.id = i
    · simp [rangeTime, List.find?_cons, ha]
    · rw [rangeTime_cons_ne ha, rangeTime_cons_ne ha]
      have hi' : i ∈ idsOf l1 := by
        rcases mem_idsOf.mp hi with ⟨r, hr, hri⟩
        rcases List.mem_cons.mp hr with h1 | h1
        · exact absurd (h1 ▸ hri) ha
        · exact mem_idsOf.mpr ⟨r, h1, hri⟩
      exact ih hnd' hi'

/-! ### insertSorted and find_free lemmas -/

theorem insertSorted_perm (f : Int → Nat) (i : Int) (q : List Int) :
    List.Perm (insertSorted f i q) (i :: q) := by
  induction q with
  | nil => simp [insertSorted]
  | cons x xs ih =>
    by_cases h : f i < f x
    · simp [insertSorted, h]
    · simp only [insertSorted, h, if_neg, not_false_iff]
      exact (ih.cons x).trans (List.Perm.swap i x xs)

theorem mem_insertSorted {f : Int → Nat} {i j : Int} {q : List Int} :
    j ∈ insertSorted f i q ↔ j = i ∨ j ∈ q := by
  rw [(insertSorted_perm f i q).mem_iff]
  simp

theorem insertSorted_sorted {f : Int → Nat} {i : Int} {q : List Int}
    (h : q.Pairwise (fun a b => f a ≤ f b)) :
    (insertSorted f i q).Pairwise (fun a b => f a ≤ f b) := by
  induction q with
  | nil => simp [insertSorted]
  | cons x xs ih =>
    rcases List.pairwise_cons.mp h with ⟨hx, hxs⟩
    by_cases hlt : f i < f x
    · simp only [insertSorted, hlt, if_pos]
      refine List.Pairwise.cons ?_ (List.Pairwise.cons hx hxs)
      intro a ha
      rcases List.mem_cons.mp ha with h1 | h1
      · exact h1 ▸ le_of_lt hlt
      · exact le_trans (le_of_lt hlt) (hx a h1)
    · simp only [insertSorted, hlt, if_neg, not_false_iff]
      refine List.Pairwise.cons ?_ (ih hxs)
      intro a ha
      rcases mem_insertSorted.mp ha with h1 | h1
      · exact h1 ▸ le_of_not_lt hlt
      · exact hx a h1

theorem find_free_disjoint {base poolLen length : Nat} {rs : List Range}
    {tries : List Nat} {off : Nat}
    (h : find_free base poolLen length rs tries = some off) :
    range_conflicts off (off + length - 1) rs = false := by
  induction tries with
  | nil => simp [find_free] at h
  | cons t ts ih =>
    simp only [find_free] at h
    by_cases hg : length = 0 ∨ poolLen < length
    · simp [hg] at h
    · simp only [hg, if_neg, not_false_iff] at h
      by_cases hc : range_conflicts (base + t % (poolLen - length + 1))
          (base + t % (poolLen - length + 1) + length - 1) rs
      · rw [if_pos hc] at h
        exact ih h
      · rw [if_neg hc] at h
        cases h
        exact Bool.eq_false_iff.mpr hc

theorem range_conflicts_false_iff {lo hi : Nat} {rs : List Range} :
    range_conflicts lo hi rs = false ↔
      ∀ r ∈ rs, overlaps lo hi r.interval_low r.interval_high = false := by
  simp [range_conflicts, List.any_eq_false]

/-- For a nodup range list, filtering the id list by survival in the
yielded sub-list agrees with the ids of the kept sub-list. -/
theorem idsOf_kept (y : Range → Bool) :
    ∀ (rs : List Range), (idsOf rs).Nodup →
      (idsOf rs).filter (fun i => !(decide (i ∈ idsOf (rs.filter y)))) =
        idsOf (rs.filter (fun r => !(y r))) := by
  intro rs
  induction rs with
  | nil => intro _; simp [idsOf]
  | cons a tl ih =>
    intro hnd
    have hnd' : (idsOf tl).Nodup := (List.nodup_cons.mp (by simpa [idsOf] using hnd)).2
    have hand : a.id ∉ idsOf tl := (List.nodup_cons.mp (by simpa [idsOf] using hnd)).1
    have hsub : ∀ i, i ∈ idsOf (tl.filter y) → i ∈ idsOf tl := by
      intro i hi
      rcases mem_idsOf.mp hi with ⟨r, hr, hri⟩
      exact mem_idsOf.mpr ⟨r, (List.mem_filter.mp hr).1, hri⟩
    by_cases hy : y a
    · have h1 : (a :: tl).filter y = a :: tl.filter y := by simp [List.filter_cons, hy]
      have h2 : (a :: tl).filter (fun r => !(y r)) = tl.filter (fun r => !(y r)) := by
        simp [List.filter_cons, hy]
      rw [h1, h2]
      have h3 : idsOf (a :: tl) = a.id :: idsOf tl := by simp [idsOf]
      rw [h3]
      rw [List.filter_cons]
      have h4 : (!(decide (a.id ∈ idsOf (a :: tl.filter y)))) = false := by
        simp [idsOf]
      rw [h4]
      simp only [Bool.false_eq_true, if_neg, not_false_iff]
      rw [← ih hnd']
      apply List.filter_congr
      intro i hi
      have hia : i ≠ a.id := fun hc => hand (hc ▸ hi)
      simp only [idsOf, List.map_cons, List.mem_cons, decide_eq_true_eq]
      simp [idsOf] at hia ⊢
      tauto
    · have h1 : (a :: tl).filter y = tl.filter y := by
        simp [List.filter_cons, hy]
      have h2 : (a :: tl).filter (fun r => !(y r)) = a :: tl.filter (fun r => !(y r)) := by
        simp [List.filter_cons, hy]
      rw [h1, h2]
      have h3 : idsOf (a :: tl) = a.id :: idsOf tl := by simp [idsOf]
      have h5 : idsOf (a :: tl.filter (fun r => !(y r))) =
          a.id :: idsOf (tl.filter (fun r => !(y r))) := by simp [idsOf]
      rw [h3, h5, List.filter_cons]
      have h4 : (!(decide (a.id ∈ idsOf (tl.filter y)))) = true := by
        simp only [Bool.not_eq_true', decide_eq_false_iff_not]
        exact fun hc => hand (hsub _ hc)
      rw [h4]
      simp only [if_pos]
      rw [ih hnd']

/-! ### Invariant preservation -/

theorem ClientInv.mono {mc mc' : Maap_Client} (h : ClientInv mc)
    (hr : mc'.ranges = mc.ranges) (hq : mc'.timer_queue = mc.timer_queue)
    (hm : mc'.maxid = mc.maxid) (hi : mc'.initialized = mc.initialized) :
    ClientInv mc' := by
  constructor
  · rw [hr]; exact h.ids_nodup
  · rw [hr]; exact h.ids_pos
  · rw [hr, hm]; exact h.ids_le
  · rw [hm]; exact h.maxid_nonneg
  · rw [hr]; exact h.states_pd
  · rw [hr]; exact h.lo_le_hi
  · rw [hq, hr]; exact h.queue_perm
  · rw [hq, hr]; exact h.queue_sorted
  · rw [hr]; exact h.disjoint
  · rw [hi, hr, hm]; exact h.uninit_empty

theorem inv_add_notify {mc : Maap_Client} {s : Nat} {n : Maap_Notify}
    (h : ClientInv mc) : ClientInv (add_notify mc s n) :=
  h.mono rfl rfl rfl rfl

theorem inv_get_notify {mc : Maap_Client} (h : ClientInv mc) :
    ClientInv (get_notify mc).1 := by
  cases hn : mc.notifies with
  | nil => simpa [get_notify, hn] using h
  | cons x rest =>
    refine ClientInv.mono h ?_ ?_ ?_ ?_ <;> simp [get_notify, hn]

theorem inv_init {mc : Maap_Client} {s b l : Nat} (h : ClientInv mc) :
    ClientInv (maap_init_client mc s b l).1 := by
  by_cases hi : mc.initialized
  · simp only [maap_init_client, hi, if_pos]
    exact inv_add_notify h
  · simp only [maap_init_client, hi, Bool.false_eq_true, if_false]
    constructor <;> simp [idsOf]

theorem inv_release {mc : Maap_Client} {s : Nat} {id : Int} (h : ClientInv mc) :
    ClientInv (maap_release_range mc s id).1 := by
  cases hf : mc.ranges.find? (fun r => decide (r.id = id)) with
  | none =>
    simp only [maap_release_range, hf]
    exact inv_add_notify h
  | some r =>
    by_cases hs : r.sender = s
    · simp only [maap_release_range, hf, hs, if_pos]
      have hq2 : List.Perm (mc.timer_queue.filter (fun i => !decide (i = id)))
          (idsOf (mc.ranges.filter (fun x => !decide (x.id = id)))) := by
        rw [idsOf_filter_through mc.ranges (fun i => !decide (i = id))]
        exact h.queue_perm.filter _
      constructor
      · rw [idsOf_filter_through mc.ranges (fun i => !decide (i = id))]
        exact List.Nodup.filter _ h.ids_nodup
      · intro r' hr'; exact h.ids_pos r' (List.mem_filter.mp hr').1
      · intro r' hr'; exact h.ids_le r' (List.mem_filter.mp hr').1
      · exact h.maxid_nonneg
      · intro r' hr'; exact h.states_pd r' (List.mem_filter.mp hr').1
      · intro r' hr'; exact h.lo_le_hi r' (List.mem_filter.mp hr').1
      · exact hq2
      · have hpw := h.queue_sorted.sublist
          (List.filter_sublist (p := fun i => !decide (i = id)) mc.timer_queue)
        refine List.Pairwise.imp_of_mem ?_ hpw
        intro a b ha hb hab
        have ha2 : a ∈ idsOf (mc.ranges.filter (fun x => !decide (x.id = id))) :=
          hq2.mem_iff.mp ha
        have hb2 : b ∈ idsOf (mc.ranges.filter (fun x => !decide (x.id = id))) :=
          hq2.mem_iff.mp hb
        rw [rangeTime_sublist (List.filter_sublist mc.ranges) h.ids_nodup ha2,
            rangeTime_sublist (List.filter_sublist mc.ranges) h.ids_nodup hb2]
        exact hab
      · exact h.disjoint.sublist (List.filter_sublist mc.ranges)
      · intro hun
        exfalso
        have he := (h.uninit_empty hun).1
        rw [he] at hf
        simp at hf
    · simp only [maap_release_range, hf, hs, if_neg, not_false_iff]
      exact inv_add_notify h

theorem inv_reserve {mc : Maap_Client} {s len now : Nat} {tries : List Nat}
    {rd : Nat} (h : ClientInv mc) :
    ClientInv (maap_reserve_range mc s len now tries rd).1 := by
  by_cases hinit : mc.initialized
  · by_cases hlen : len < 1 ∨ 0xFFFF < len
    · simp only [maap_reserve_range, hinit, Bool.not_true, Bool.false_eq_true,
        if_false, hlen, if_true]
      exact inv_add_notify h
    · cases hff : find_free mc.address_base mc.range_len len mc.ranges tries with
      | none =>
        simp only [maap_reserve_range, hinit, Bool.not_true, Bool.false_eq_true,
          if_false, hlen, hff]
        exact inv_add_notify h
      | some off =>
        have hlen1 : 1 ≤ len := by omega
        have hdisj := range_conflicts_false_iff.mp (find_free_disjoint hff)
        simp only [maap_reserve_range, hinit, Bool.not_true, Bool.false_eq_true,
          if_false, hlen, hff]
        set r0 : Range :=
          { id := mc.maxid + 1, state := .MAAP_STATE_PROBING,
            counter := MAAP_PROBE_RETRANSMITS,
            next_act_time := now + rd % MAAP_PROBE_INTERVAL_VARIATION,
            interval_low := off, interval_high := off + len - 1,
            sender := s } with hr0
        have hfresh : (mc.maxid + 1 : Int) ∉ idsOf mc.ranges := by
          intro hc
          rcases mem_idsOf.mp hc with ⟨r, hr, hri⟩
          have := h.ids_le r hr
          omega
        have hne : ∀ i ∈ mc.timer_queue, r0.id ≠ i := by
          intro i hi hc
          have : i ∈ idsOf mc.ranges := h.queue_perm.mem_iff.mp hi
          rw [← hc] at this
          exact hfresh this
      -- the goal is now the invariant of the explicit successor record
        constructor
        · show (idsOf (r0 :: mc.ranges)).Nodup
          simp only [idsOf, List.map_cons]
          exact List.nodup_cons.mpr ⟨hfresh, h.ids_nodup⟩
        · intro r' hr'
          rcases List.mem_cons.mp hr' with h1 | h1
          · rw [h1]; show (0 : Int) < mc.maxid + 1; have := h.maxid_nonneg; omega
          · exact h.ids_pos r' h1
        · intro r' hr'
          rcases List.mem_cons.mp hr' with h1 | h1
          · rw [h1]
          · have := h.ids_le r' h1; show r'.id ≤ mc.maxid + 1; omega
        · show (0 : Int) ≤ mc.maxid + 1
          have := h.maxid_nonneg; omega
        · intro r' hr'
          rcases List.mem_cons.mp hr' with h1 | h1
          · rw [h1]; exact Or.inl rfl
          · exact h.states_pd r' h1
        · intro r' hr'
          rcases List.mem_cons.mp hr' with h1 | h1
          · rw [h1]; show off ≤ off + len - 1; omega
          · exact h.lo_le_hi r' h1
        · show List.Perm (insertSorted (rangeTime (r0 :: mc.ranges)) (mc.maxid + 1) mc.timer_queue)
            (idsOf (r0 :: mc.ranges))
          have h1 : idsOf (r0 :: mc.ranges) = (mc.maxid + 1) :: idsOf mc.ranges := by
            simp [idsOf, hr0]
          rw [h1]
          exact (insertSorted_perm _ _ _).trans (h.queue_perm.cons _)
        · apply insertSorted_sorted
          refine List.Pairwise.imp_of_mem ?_ h.queue_sorted
          intro a b ha hb hab
          rw [rangeTime_cons_ne (hne a ha), rangeTime_cons_ne (hne b hb)]
          exact hab
        · refine List.Pairwise.cons ?_ h.disjoint
          intro b hb
          exact hdisj b hb
        · intro hc
          simp at hc
  · have hb : mc.initialized = false := by
      cases hmc : mc.initialized
      · rfl
      · exact absurd hmc hinit
    simp only [maap_reserve_range, hb, Bool.not_false, if_true]
    exact inv_add_notify h

theorem inv_packet {mc : Maap_Client} {stream : List Nat} {len : Nat}
    (h : ClientInv mc) : ClientInv (maap_handle_packet mc stream len).1 := by
  by_cases hg : (decide (MAAP_PKT_SIZE ≤ len) && decide (pkt_ethertype stream = MAAP_TYPE) &&
       decide (pkt_subtype stream = MAAP_SUBTYPE)) = true
  · by_cases hsrc : (decodePdu stream).src_mac = mc.src_mac
    · simp only [maap_handle_packet, hg, Bool.not_true, Bool.false_eq_true, if_false, hsrc,
        if_true]
      exact h
    · simp only [maap_handle_packet, hg, Bool.not_true, Bool.false_eq_true, if_false, hsrc,
        if_true, if_neg, not_false_iff]
      set p := decodePdu stream with hp
      set y := range_yields mc.src_mac p with hy
      have hperm : List.Perm
          (mc.timer_queue.filter (fun i => !(decide (i ∈ idsOf (mc.ranges.filter y)))))
          (idsOf (mc.ranges.filter (fun r => !(y r)))) := by
        have h1 := h.queue_perm.filter (fun i => !(decide (i ∈ idsOf (mc.ranges.filter y))))
        rw [idsOf_kept y mc.ranges h.ids_nodup] at h1
        exact h1
      constructor
      · exact List.Nodup.sublist ((List.filter_sublist mc.ranges).map _) h.ids_nodup
      · intro r' hr'; exact h.ids_pos r' (List.mem_filter.mp hr').1
      · intro r' hr'; exact h.ids_le r' (List.mem_filter.mp hr').1
      · exact h.maxid_nonneg
      · intro r' hr'; exact h.states_pd r' (List.mem_filter.mp hr').1
      · intro r' hr'; exact h.lo_le_hi r' (List.mem_filter.mp hr').1
      · exact hperm
      · have hpw := h.queue_sorted.sublist
          (List.filter_sublist (p := fun i => !(decide (i ∈ idsOf (mc.ranges.filter y))))
            mc.timer_queue)
        refine List.Pairwise.imp_of_mem ?_ hpw
        intro a b ha hb hab
        have ha2 := hperm.mem_iff.mp ha
        have hb2 := hperm.mem_iff.mp hb
        rw [rangeTime_sublist (List.filter_sublist mc.ranges) h.ids_nodup ha2,
            rangeTime_sublist (List.filter_sublist mc.ranges) h.ids_nodup hb2]
        exact hab
      · exact h.disjoint.sublist (List.filter_sublist mc.ranges)
      · intro hun
        obtain ⟨he, hm⟩ := h.uninit_empty hun
        constructor
        · show mc.ranges.filter _ = []
          rw [he]; rfl
        · exact hm
  · simp only [maap_handle_packet, hg, Bool.not_false, if_true]
    exact h

/-- One-range reschedule preserves the invariant: the range with the head
id is replaced (same id, same interval, state still live) and reinserted
into the remaining queue by its new time. -/
theorem inv_update_reschedule {mc : Maap_Client} {id : Int} {rest : List Int}
    {rg rg2 : Range} {mc' : Maap_Client}
    (h : ClientInv mc)
    (hq : mc.timer_queue = id :: rest)
    (hfind : mc.ranges.find? (fun r => decide (r.id = id)) = some rg)
    (hid : rg2.id = rg.id)
    (hstate : rg2.state = .MAAP_STATE_PROBING ∨ rg2.state = .MAAP_STATE_DEFENDING)
    (hlo : rg2.interval_low = rg.interval_low)
    (hhi : rg2.interval_high = rg.interval_high)
    (hr : mc'.ranges = mc.ranges.map (fun x => if x.id = id then rg2 else x))
    (hq' : mc'.timer_queue = insertSorted (rangeTime mc'.ranges) id rest)
    (hm : mc'.maxid = mc.maxid) (hi : mc'.initialized = mc.initialized) :
    ClientInv mc' := by
  obtain ⟨hrgid, hrgmem⟩ := find?_id_spec hfind
  have hid2 : rg2.id = id := hid.trans hrgid
  have hids : idsOf mc'.ranges = idsOf mc.ranges := by
    rw [hr]; exact idsOf_update hid2
  have hqnd : mc.timer_queue.Nodup := h.queue_perm.symm.nodup h.ids_nodup
  have hidrest : id ∉ rest := by
    have := hq ▸ hqnd
    exact (List.nodup_cons.mp this).1
  have hmem : ∀ y ∈ mc'.ranges, y = rg2 ∨ y ∈ mc.ranges := by
    intro y hy
    rw [hr] at hy
    rcases List.mem_map.mp hy with ⟨x, hx, hyx⟩
    by_cases hxid : x.id = id
    · left; rw [← hyx]; simp [hxid]
    · right; rw [← hyx]; simp [hxid]; exact hx
  constructor
  · rw [hids]; exact h.ids_nodup
  · intro r' hr'
    rcases hmem r' hr' with h1 | h1
    · rw [h1, hid]; exact h.ids_pos rg hrgmem
    · exact h.ids_pos r' h1
  · intro r' hr'
    rw [hm]
    rcases hmem r' hr' with h1 | h1
    · rw [h1, hid]; exact h.ids_le rg hrgmem
    · exact h.ids_le r' h1
  · rw [hm]; exact h.maxid_nonneg
  · intro r' hr'
    rcases hmem r' hr' with h1 | h1
    · rw [h1]; exact hstate
    · exact h.states_pd r' h1
  · intro r' hr'
    rcases hmem r' hr' with h1 | h1
    · rw [h1, hlo, hhi]; exact h.lo_le_hi rg hrgmem
    · exact h.lo_le_hi r' h1
  · rw [hq', hids]
    refine (insertSorted_perm _ _ _).trans ?_
    rw [← hq]
    exact h.queue_perm
  · rw [hq']
    apply insertSorted_sorted
    have hrest : rest.Pairwise (fun a b => rangeTime mc.ranges a ≤ rangeTime mc.ranges b) := by
      have := hq ▸ h.queue_sorted
      exact (List.pairwise_cons.mp this).2
    refine List.Pairwise.imp_of_mem ?_ hrest
    intro a b ha hb hab
    have hane : a ≠ id := fun hc => hidrest (hc ▸ ha)
    have hbne : b ≠ id := fun hc => hidrest (hc ▸ hb)
    rw [hr, rangeTime_update_ne hid2 hane, rangeTime_update_ne hid2 hbne]
    exact hab
  · rw [hr]
    rw [List.pairwise_map]
    refine List.Pairwise.imp_of_mem ?_ h.disjoint
    intro a b ha hb hab
    have hint : ∀ x ∈ mc.ranges,
        (if x.id = id then rg2 else x).interval_low = x.interval_low ∧
        (if x.id = id then rg2 else x).interval_high = x.interval_high := by
      intro x hx
      by_cases hxid : x.id = id
      · have hxe : x = rg := find?_unique_of_nodup h.ids_nodup hfind hx hxid
        rw [hxe]
        simp [hrgid, hlo, hhi]
      · simp [hxid]
    obtain ⟨hal, hah⟩ := hint a ha
    obtain ⟨hbl, hbh⟩ := hint b hb
    rw [hal, hah, hbl, hbh]
    exact hab
  · intro hun
    rw [hi] at hun
    obtain ⟨he, _⟩ := h.uninit_empty hun
    rw [he] at hfind
    simp at hfind

theorem inv_timer_step {mc : Maap_Client} {now rnd : Nat} (h : ClientInv mc) :
    ClientInv (timer_step mc now rnd) := by
  cases hq : mc.timer_queue with
  | nil => simp only [timer_step, hq]; exact h
  | cons id rest =>
    cases hfind : mc.ranges.find? (fun r => decide (r.id = id)) with
    | none =>
      exfalso
      have hidm : id ∈ idsOf mc.ranges :=
        h.queue_perm.mem_iff.mp (by rw [hq]; exact List.mem_cons_self id rest)
      rcases find?_eq_some_of_mem_ids hidm with ⟨r, hr, _, _⟩
      rw [hfind] at hr
      cases hr
    | some rg =>
      obtain ⟨hrgid, hrgmem⟩ := find?_id_spec hfind
      by_cases hexp : rg.next_act_time ≤ now
      · rcases h.states_pd rg hrgmem with hst | hst
        · by_cases hcnt : 0 < rg.counter
          · simp only [timer_step, hq, hfind, hst, hexp, hcnt, if_true]
            refine inv_update_reschedule h hq hfind ?_ ?_ ?_ ?_ rfl rfl rfl rfl
            · rfl
            · exact Or.inl rfl
            · rfl
            · rfl
          · simp only [timer_step, hq, hfind, hst, hexp, hcnt, if_true, if_false]
            refine inv_update_reschedule h hq hfind ?_ ?_ ?_ ?_ rfl rfl rfl rfl
            · rfl
            · exact Or.inr rfl
            · rfl
            · rfl
        · simp only [timer_step, hq, hfind, hst, hexp, if_true]
          refine inv_update_reschedule h hq hfind ?_ ?_ ?_ ?_ rfl rfl rfl rfl
          · rfl
          · exact Or.inr rfl
          · rfl
          · rfl
      · simp only [timer_step, hq, hfind, hexp, if_false]
        exact h

theorem inv_timer_aux {now : Nat} :
    ∀ (rands : List Nat) (mc : Maap_Client), ClientInv mc →
      ClientInv (maap_handle_timer_aux now rands mc) := by
  intro rands
  induction rands with
  | nil => intro mc h; exact h
  | cons rnd rs ih =>
    intro mc h
    cases hq : mc.timer_queue with
    | nil => simp only [maap_handle_timer_aux, hq]; exact h
    | cons id rest =>
      simp only [maap_handle_timer_aux, hq]
      by_cases he : rangeTime mc.ranges id ≤ now
      · rw [if_pos he]
        exact ih _ (inv_timer_step h)
      · rw [if_neg he]
        exact h

theorem inv_timer {mc : Maap_Client} {now : Nat} {rands : List Nat}
    (h : ClientInv mc) : ClientInv (maap_handle_timer mc now rands).1 :=
  inv_timer_aux rands mc h

theorem inv_step {mc mc' : Maap_Client} (h : ClientInv mc) (hs : Step mc mc') :
    ClientInv mc' := by
  cases hs with
  | init s b l => exact inv_init h
  | reserve s len now tries rd => exact inv_reserve h
  | release s id => exact inv_release h
  | packet stream len => exact inv_packet h
  | timer now rands => exact inv_timer h
  | notify => exact inv_get_notify h

theorem reachable_inv {mc : Maap_Client} (h : Reachable mc) : ClientInv mc := by
  induction h with
  | init src => constructor <;> simp [initial_client, idsOf]
  | step _ hs ih => exact inv_step ih hs

/-! ### Identifier freshness helpers -/

theorem timer_step_skel (mc : Maap_Client) (now rnd : Nat) :
    (timer_step mc now rnd).maxid = mc.maxid ∧
    ∀ r' ∈ (timer_step mc now rnd).ranges, r'.id ∈ idsOf mc.ranges := by
  have hkeep : ∀ r' ∈ mc.ranges, r'.id ∈ idsOf mc.ranges :=
    fun r' hr' => mem_idsOf.mpr ⟨r', hr', rfl⟩
  cases hq : mc.timer_queue with
  | nil => simp only [timer_step, hq]; exact ⟨trivial, hkeep⟩
  | cons id rest =>
    cases hfind : mc.ranges.find? (fun r => decide (r.id = id)) with
    | none => simp only [timer_step, hq, hfind]; exact ⟨trivial, hkeep⟩
    | some rg =>
      obtain ⟨hrgid, hrgmem⟩ := find?_id_spec hfind
      have hupd : ∀ (rg2 : Range), rg2.id = id →
          ∀ r' ∈ mc.ranges.map (fun x => if x.id = id then rg2 else x),
            r'.id ∈ idsOf mc.ranges := by
        intro rg2 hid2 r' hr'
        rcases List.mem_map.mp hr' with ⟨x, hx, hxe⟩
        by_cases hxid : x.id = id
        · have he : (if x.id = id then rg2 else x) = rg2 := if_pos hxid
          rw [← hxe, he, hid2, ← hxid]
          exact mem_idsOf.mpr ⟨x, hx, rfl⟩
        · have he : (if x.id = id then rg2 else x) = x := if_neg hxid
          rw [← hxe, he]
          exact mem_idsOf.mpr ⟨x, hx, rfl⟩
      have hfil : ∀ r' ∈ mc.ranges.filter (fun x => !decide (x.id = id)),
          r'.id ∈ idsOf mc.ranges :=
        fun r' hr' => mem_idsOf.mpr ⟨r', (List.mem_filter.mp hr').1, rfl⟩
      by_cases hexp : rg.next_act_time ≤ now
      · cases hst : rg.state with
        | MAAP_STATE_PROBING =>
          by_cases hcnt : 0 < rg.counter
          · simp only [timer_step, hq, hfind, hst, hexp, hcnt, if_true]
            exact ⟨trivial, hupd _ hrgid⟩
          · simp only [timer_step, hq, hfind, hst, hexp, hcnt, if_true, if_false]
            exact ⟨trivial, hupd _ hrgid⟩
        | MAAP_STATE_DEFENDING =>
          simp only [timer_step, hq, hfind, hst, hexp, if_true]
          exact ⟨trivial, hupd _ hrgid⟩
        | MAAP_STATE_INVALID =>
          simp only [timer_step, hq, hfind, hst, hexp, if_true]
          exact ⟨trivial, hfil⟩
        | MAAP_STATE_RELEASED =>
          simp only [timer_step, hq, hfind, hst, hexp, if_true]
          exact ⟨trivial, hfil⟩
      · simp only [timer_step, hq, hfind, hexp, if_false]
        exact ⟨trivial, hkeep⟩

theorem timer_aux_skel (now : Nat) : ∀ (rands : List Nat) (mc : Maap_Client),
    (maap_handle_timer_aux now rands mc).maxid = mc.maxid ∧
    ∀ r' ∈ (maap_handle_timer_aux now rands mc).ranges, r'.id ∈ idsOf mc.ranges := by
  intro rands
  induction rands with
  | nil =>
    intro mc
    exact ⟨rfl, fun r' hr' => mem_idsOf.mpr ⟨r', hr', rfl⟩⟩
  | cons rnd rs ih =>
    intro mc
    cases hq : mc.timer_queue with
    | nil =>
      simp only [maap_handle_timer_aux, hq]
      exact ⟨trivial, fun r' hr' => mem_idsOf.mpr ⟨r', hr', rfl⟩⟩
    | cons id rest =>
      simp only [maap_handle_timer_aux, hq]
      by_cases he : rangeTime mc.ranges id ≤ now
      · rw [if_pos he]
        obtain ⟨hm1, hr1⟩ := ih (timer_step mc now rnd)
        obtain ⟨hm2, hr2⟩ := timer_step_skel mc now rnd
        refine ⟨hm1.trans hm2, ?_⟩
        intro r' hr'
        have h1 := hr1 r' hr'
        rcases mem_idsOf.mp h1 with ⟨x, hx, hxe⟩
        rw [← hxe]
        exact hr2 x hx
      · rw [if_neg he]
        exact ⟨rfl, fun r' hr' => mem_idsOf.mpr ⟨r', hr', rfl⟩⟩

/-- Any engine step keeps `maxid` nondecreasing and gives every newly
appearing range an id above the old `maxid` (so retired ids are never
reused). -/
theorem step_fresh {mc mc' : Maap_Client} (h : ClientInv mc) (hs : Step mc mc') :
    mc.maxid ≤ mc'.maxid ∧
    ∀ r' ∈ mc'.ranges, r'.id ∉ idsOf mc.ranges → mc.maxid < r'.id := by
  have hsame : ∀ (m : Maap_Client), m.ranges = mc.ranges → m.maxid = mc.maxid →
      mc.maxid ≤ m.maxid ∧
      ∀ r' ∈ m.ranges, r'.id ∉ idsOf mc.ranges → mc.maxid < r'.id := by
    intro m hr hm
    refine ⟨le_of_eq hm.symm, ?_⟩
    intro r' hr' hnot
    exact absurd (mem_idsOf.mpr ⟨r', hr ▸ hr', rfl⟩) hnot
  cases hs with
  | init s b l =>
    by_cases hi : mc.initialized
    · simp only [maap_init_client, hi, if_pos]
      exact hsame _ rfl rfl
    · have hb : mc.initialized = false := by
        cases hmc : mc.initialized
        · rfl
        · exact absurd hmc hi
      obtain ⟨he, hm0⟩ := h.uninit_empty hb
      simp only [maap_init_client, hb, Bool.false_eq_true, if_false]
      constructor
      · show mc.maxid ≤ 0
        rw [hm0]
      · intro r' hr'
        simp at hr'
  | reserve s len now tries rd =>
    by_cases hinit : mc.initialized
    · by_cases hlen : len < 1 ∨ 0xFFFF < len
      · simp only [maap_reserve_range, hinit, Bool.not_true, Bool.false_eq_true,
          if_false, hlen, if_true]
        exact hsame _ rfl rfl
      · cases hff : find_free mc.address_base mc.range_len len mc.ranges tries with
        | none =>
          simp only [maap_reserve_range, hinit, Bool.not_true, Bool.false_eq_true,
            if_false, hlen, hff]
          exact hsame _ rfl rfl
        | some off =>
          simp only [maap_reserve_range, hinit, Bool.not_true, Bool.false_eq_true,
            if_false, hlen, hff]
          constructor
          · show mc.maxid ≤ mc.maxid + 1
            omega
          · intro r' hr' hnot
            rcases List.mem_cons.mp hr' with h1 | h1
            · rw [h1]
              show mc.maxid < mc.maxid + 1
              omega
            · exact absurd (mem_idsOf.mpr ⟨r', h1, rfl⟩) hnot
    · have hb : mc.initialized = false := by
        cases hmc : mc.initialized
        · rfl
        · exact absurd hmc hinit
      simp only [maap_reserve_range, hb, Bool.not_false, if_true]
      exact hsame _ rfl rfl
  | release s id =>
    cases hf : mc.ranges.find? (fun r => decide (r.id = id)) with
    | none =>
      simp only [maap_release_range, hf]
      exact hsame _ rfl rfl
    | some r =>
      by_cases hsd : r.sender = s
      · simp only [maap_release_range, hf, hsd, if_pos]
        refine ⟨le_refl _, ?_⟩
        intro r' hr' hnot
        exact absurd (mem_idsOf.mpr ⟨r', (List.mem_filter.mp hr').1, rfl⟩) hnot
      · simp only [maap_release_range, hf, hsd, if_neg, not_false_iff]
        exact hsame _ rfl rfl
  | packet stream len =>
    by_cases hg : (decide (MAAP_PKT_SIZE ≤ len) &&
        decide (pkt_ethertype stream = MAAP_TYPE) &&
        decide (pkt_subtype stream = MAAP_SUBTYPE)) = true
    · by_cases hsrc : (decodePdu stream).src_mac = mc.src_mac
      · simp only [maap_handle_packet, hg, Bool.not_true, Bool.false_eq_true, if_false,
          hsrc, if_true]
        exact hsame _ rfl rfl
      · simp only [maap_handle_packet, hg, Bool.not_true, Bool.false_eq_true, if_false,
          hsrc, if_true, if_neg, not_false_iff]
        refine ⟨le_refl _, ?_⟩
        intro r' hr' hnot
        exact absurd (mem_idsOf.mpr ⟨r', (List.mem_filter.mp hr').1, rfl⟩) hnot
    · simp only [maap_handle_packet, hg, Bool.not_false, if_true]
      exact hsame _ rfl rfl
  | timer now rands =>
    obtain ⟨hm, hr⟩ := timer_aux_skel now rands mc
    constructor
    · exact le_of_eq hm.symm
    · intro r' hr' hnot
      exact absurd (hr r' hr') hnot
  | notify =>
    cases hn : mc.notifies with
    | nil => simp only [get_notify, hn]; exact hsame _ rfl rfl
    | cons x rest => simp only [get_notify, hn]; exact hsame _ rfl rfl

/-! ### Concrete scenario used by the witnesses -/

/-- Engine with source MAC 5 initialized over the pool [256, 511]. -/
def M1 : Maap_Client := (maap_init_client (initial_client 5) 1 256 256).1

/-- M1 after one successful reservation of 8 addresses (id 1, [256, 263]). -/
def M2 : Maap_Client := (maap_reserve_range M1 1 8 0 [0] 0).1

/-- M2 after a second successful reservation of 8 addresses (id 2, [264, 271]). -/
def M3 : Maap_Client := (maap_reserve_range M2 1 8 0 [8] 0).1

theorem reach_M1 : Reachable M1 :=
  Reachable.step (Reachable.init 5) (Step.init (initial_client 5) 1 256 256)

theorem reach_M2 : Reachable M2 :=
  Reachable.step reach_M1 (Step.reserve M1 1 8 0 [0] 0)

theorem reach_M3 : Reachable M3 :=
  Reachable.step reach_M2 (Step.reserve M2 1 8 0 [8] 0)

/-! ### Notification queue helper lemmas -/

theorem enqueue_all_notifies :
    ∀ (l : List (Nat × Maap_Notify)) (mc : Maap_Client),
      (enqueue_all mc l).notifies = mc.notifies ++ l := by
  intro l
  induction l with
  | nil => intro mc; simp [enqueue_all]
  | cons x xs ih =>
    intro mc
    simp only [enqueue_all]
    rw [ih]
    simp [add_notify]

theorem drainAll_spec :
    ∀ (l : List (Nat × Maap_Notify)) (mc : Maap_Client), mc.notifies = l →
      drainAll l.length mc = l := by
  intro l
  induction l with
  | nil => intro mc _; rfl
  | cons x xs ih =>
    intro mc hn
    simp only [List.length_cons, drainAll, get_notify, hn]
    congr 1
    exact ih _ rfl

/-! ### The claims -/

/-- C9: the notification queue is FIFO: enqueuing any sequence with
`add_notify` and then dequeuing with `get_notify` reproduces the sequence
in order; `get_notify` returns 1 and the head while one is queued and 0
on an empty queue; `add_notify` appends at the tail. -/
theorem C9_notify_queue_fifo :
    (∀ (mc : Maap_Client) (l : List (Nat × Maap_Notify)), mc.notifies = [] →
      drainAll l.length (enqueue_all mc l) = l) ∧
    (∀ (mc : Maap_Client) (x : Nat × Maap_Notify) (rest : List (Nat × Maap_Notify)),
      mc.notifies = x :: rest →
      get_notify mc = ({ mc with notifies := rest }, 1, some x)) ∧
    (∀ mc : Maap_Client, mc.notifies = [] → get_notify mc = (mc, 0, none)) ∧
    (∀ (mc : Maap_Client) (s : Nat) (n : Maap_Notify),
      (add_notify mc s n).notifies = mc.notifies ++ [(s, n)]) := by
  refine ⟨?_, ?_, ?_, ?_⟩
  · intro mc l hempty
    apply drainAll_spec
    rw [enqueue_all_notifies, hempty]
    simp
  · intro mc x rest hn
    simp [get_notify, hn]
  · intro mc hn
    simp [get_notify, hn]
  · intro mc s n
    simp [add_notify]

/-- C9 witness: a concrete two-element sequence round-trips through the
queue of a fresh client. -/
theorem C9_witness :
    drainAll 2 (enqueue_all (initial_client 5)
      [(1, Maap_Notify.MAAP_NOTIFY_INITIALIZED),
       (2, Maap_Notify.MAAP_NOTIFY_RESERVE_FAILED)]) =
      [(1, Maap_Notify.MAAP_NOTIFY_INITIALIZED),
       (2, Maap_Notify.MAAP_NOTIFY_RESERVE_FAILED)] :=
  C9_notify_queue_fifo.1 (initial_client 5)
    [(1, Maap_Notify.MAAP_NOTIFY_INITIALIZED),
     (2, Maap_Notify.MAAP_NOTIFY_RESERVE_FAILED)] rfl

/-- C8: `maap_init_client` on an uninitialized client returns 0, sets the
configuration and enqueues an INITIALIZED notification; calling it again
without a deinit returns -1 with an INIT_FAILED notification and leaves
the existing configuration (pool, ranges, timer queue, maxid, flag)
unchanged. -/
theorem C8_init_client :
    (∀ (mc : Maap_Client) (s b l : Nat), mc.initialized = false →
      (maap_init_client mc s b l).2 = 0 ∧
      (maap_init_client mc s b l).1.initialized = true ∧
      (maap_init_client mc s b l).1.address_base = b ∧
      (maap_init_client mc s b l).1.range_len = l ∧
      (maap_init_client mc s b l).1.notifies =
        mc.notifies ++ [(s, Maap_Notify.MAAP_NOTIFY_INITIALIZED)]) ∧
    (∀ (mc : Maap_Client) (s b l : Nat), mc.initialized = true →
      (maap_init_client mc s b l).2 = -1 ∧
      (maap_init_client mc s b l).1.address_base = mc.address_base ∧
      (maap_init_client mc s b l).1.range_len = mc.range_len ∧
      (maap_init_client mc s b l).1.ranges = mc.ranges ∧
      (maap_init_client mc s b l).1.timer_queue = mc.timer_queue ∧
      (maap_init_client mc s b l).1.maxid = mc.maxid ∧
      (maap_init_client mc s b l).1.initialized = true ∧
      (maap_init_client mc s b l).1.notifies =
        mc.notifies ++ [(s, Maap_Notify.MAAP_NOTIFY_INIT_FAILED)]) ∧
    (∀ (mc : Maap_Client) (s b l s2 b2 l2 : Nat), mc.initialized = false →
      (maap_init_client (maap_init_client mc s b l).1 s2 b2 l2).2 = -1 ∧
      (maap_init_client (maap_init_client mc s b l).1 s2 b2 l2).1.address_base = b ∧
      (maap_init_client (maap_init_client mc s b l).1 s2 b2 l2).1.range_len = l) := by
  have hsucc : ∀ (mc : Maap_Client) (s b l : Nat), mc.initialized = false →
      (maap_init_client mc s b l).2 = 0 ∧
      (maap_init_client mc s b l).1.initialized = true ∧
      (maap_init_client mc s b l).1.address_base = b ∧
      (maap_init_client mc s b l).1.range_len = l ∧
      (maap_init_client mc s b l).1.notifies =
        mc.notifies ++ [(s, Maap_Notify.MAAP_NOTIFY_INITIALIZED)] := by
    intro mc s b l h
    simp [maap_init_client, h]
  have hfail : ∀ (mc : Maap_Client) (s b l : Nat), mc.initialized = true →
      (maap_init_client mc s b l).2 = -1 ∧
      (maap_init_client mc s b l).1.address_base = mc.address_base ∧
      (maap_init_client mc s b l).1.range_len = mc.range_len ∧
      (maap_init_client mc s b l).1.ranges = mc.ranges ∧
      (maap_init_client mc s b l).1.timer_queue = mc.timer_queue ∧
      (maap_init_client mc s b l).1.maxid = mc.maxid ∧
      (maap_init_client mc s b l).1.initialized = true ∧
      (maap_init_client mc s b l).1.notifies =
        mc.notifies ++ [(s, Maap_Notify.MAAP_NOTIFY_INIT_FAILED)] := by
    intro mc s b l h
    simp [maap_init_client, h, add_notify]
  refine ⟨hsucc, hfail, ?_⟩
  intro mc s b l s2 b2 l2 h
  obtain ⟨_, hflag, hbase, hlen, _⟩ := hsucc mc s b l h
  obtain ⟨h1, h2, h3, _⟩ := hfail (maap_init_client mc s b l).1 s2 b2 l2 hflag
  exact ⟨h1, h2.trans hbase, h3.trans hlen⟩

/-- C8 witness: initializing a fresh client succeeds; re-initializing
fails with -1 keeping the configured pool. -/
theorem C8_witness :
    (maap_init_client (initial_client 5) 1 256 256).2 = 0 ∧
    (maap_init_client (maap_init_client (initial_client 5) 1 256 256).1 2 512 512).2 = -1 ∧
    (maap_init_client (maap_init_client (initial_client 5) 1 256 256).1 2 512 512).1.address_base = 256 :=
  ⟨(C8_init_client.1 (initial_client 5) 1 256 256 rfl).1,
   (C8_init_client.2.2 (initial_client 5) 1 256 256 2 512 512 rfl).1,
   (C8_init_client.2.2 (initial_client 5) 1 256 256 2 512 512 rfl).2.1⟩

/-- C6: releasing a live range owned by the caller returns 0 and enqueues
one RELEASED notification; releasing the same id again finds no range,
returns -1, enqueues one RELEASE_FAILED notification and changes nothing
else, so the final notification tail is exactly RELEASED then
RELEASE_FAILED. -/
theorem C6_release_twice (mc : Maap_Client) (sender : Nat) (id : Int) (rg : Range)
    (hfind : mc.ranges.find? (fun r => decide (r.id = id)) = some rg)
    (hown : rg.sender = sender) :
    (maap_release_range mc sender id).2 = 0 ∧
    (maap_release_range mc sender id).1.notifies = mc.notifies ++
      [(sender, Maap_Notify.MAAP_NOTIFY_RELEASED id rg.interval_low (range_count rg))] ∧
    (maap_release_range (maap_release_range mc sender id).1 sender id).2 = -1 ∧
    (maap_release_range (maap_release_range mc sender id).1 sender id).1.notifies =
      mc.notifies ++
      [(sender, Maap_Notify.MAAP_NOTIFY_RELEASED id rg.interval_low (range_count rg)),
       (sender, Maap_Notify.MAAP_NOTIFY_RELEASE_FAILED id)] ∧
    (maap_release_range (maap_release_range mc sender id).1 sender id).1.ranges =
      (maap_release_range mc sender id).1.ranges ∧
    (maap_release_range (maap_release_range mc sender id).1 sender id).1.timer_queue =
      (maap_release_range mc sender id).1.timer_queue := by
  have hm1 : maap_release_range mc sender id =
      ({ mc with ranges := mc.ranges.filter (fun x => !decide (x.id = id)),
                 timer_queue := mc.timer_queue.filter (fun i => !decide (i = id)),
                 notifies := mc.notifies ++
                   [(sender, Maap_Notify.MAAP_NOTIFY_RELEASED id rg.interval_low
                      (range_count rg))] }, 0) := by
    simp only [maap_release_range, hfind, hown, if_pos]
  have hfind2 : (mc.ranges.filter (fun x => !decide (x.id = id))).find?
      (fun r => decide (r.id = id)) = none := by
    rw [List.find?_eq_none]
    intro x hx
    have := (List.mem_filter.mp hx).2
    simp at this ⊢
    exact this
  have hm2 : maap_release_range (maap_release_range mc sender id).1 sender id =
      (add_notify (maap_release_range mc sender id).1 sender
        (Maap_Notify.MAAP_NOTIFY_RELEASE_FAILED id), -1) := by
    rw [hm1]
    simp only [maap_release_range, hfind2]
  refine ⟨?_, ?_, ?_, ?_, ?_, ?_⟩
  · rw [hm1]
  · rw [hm1]
  · rw [hm2]
  · rw [hm2, hm1]
    simp [add_notify]
  · rw [hm2, hm1]
    simp [add_notify]
  · rw [hm2, hm1]
    simp [add_notify]

/-- C6 witness: releasing id 1 of the concrete client M2 twice yields 0
then -1 with the RELEASED / RELEASE_FAILED notification pair. -/
theorem C6_witness :
    (maap_release_range M2 1 1).2 = 0 ∧
    (maap_release_range (maap_release_range M2 1 1).1 1 1).2 = -1 := by
  have h := C6_release_twice M2 1 1
    { id := 1, state := .MAAP_STATE_PROBING, counter := 3, next_act_time := 0,
      interval_low := 256, interval_high := 263, sender := 1 }
    (by decide) (by decide)
  exact ⟨h.1, h.2.2.1⟩

/-- C2: `maap_reserve_range` with length in [1, 0xFFFF] over a pool where
the bounded random search finds a free sub-range creates a Range in
Probing and returns its positive identifier (the incremented `maxid`);
when the search fails it returns -1 and enqueues a RESERVE_FAILED
notification; reserve of 0x10000 addresses is always rejected with -1. -/
theorem C2_reserve_range :
    (∀ (mc : Maap_Client) (s len now : Nat) (tries : List Nat) (rd off : Nat),
      mc.initialized = true → 0 ≤ mc.maxid → 1 ≤ len → len ≤ 0xFFFF →
      find_free mc.address_base mc.range_len len mc.ranges tries = some off →
      (maap_reserve_range mc s len now tries rd).2 = mc.maxid + 1 ∧
      0 < (maap_reserve_range mc s len now tries rd).2 ∧
      ∃ r0 : Range, (maap_reserve_range mc s len now tries rd).1.ranges = r0 :: mc.ranges ∧
        r0.state = Maap_State.MAAP_STATE_PROBING ∧ r0.id = mc.maxid + 1 ∧
        r0.counter = MAAP_PROBE_RETRANSMITS ∧ r0.interval_low = off ∧
        r0.interval_high = off + len - 1) ∧
    (∀ (mc : Maap_Client) (s len now : Nat) (tries : List Nat) (rd : Nat),
      mc.initialized = true → 1 ≤ len → len ≤ 0xFFFF →
      find_free mc.address_base mc.range_len len mc.ranges tries = none →
      (maap_reserve_range mc s len now tries rd).2 = -1 ∧
      (maap_reserve_range mc s len now tries rd).1.notifies =
        mc.notifies ++ [(s, Maap_Notify.MAAP_NOTIFY_RESERVE_FAILED)]) ∧
    (∀ (mc : Maap_Client) (s now : Nat) (tries : List Nat) (rd : Nat),
      (maap_reserve_range mc s 0x10000 now tries rd).2 = -1) := by
  refine ⟨?_, ?_, ?_⟩
  · intro mc s len now tries rd off hinit hmax h1 h2 hff
    have hlen : ¬(len < 1 ∨ 0xFFFF < len) := by omega
    simp only [maap_reserve_range, hinit, Bool.not_true, Bool.false_eq_true, if_false,
      hlen, hff]
    refine ⟨trivial, by omega, ?_⟩
    exact ⟨_, rfl, rfl, rfl, rfl, rfl, rfl⟩
  · intro mc s len now tries rd hinit h1 h2 hff
    have hlen : ¬(len < 1 ∨ 0xFFFF < len) := by omega
    simp only [maap_reserve_range, hinit, Bool.not_true, Bool.false_eq_true, if_false,
      hlen, hff]
    exact ⟨trivial, by simp [add_notify]⟩
  · intro mc s now tries rd
    by_cases hinit : mc.initialized
    · have hlen : ((0x10000 : Nat) < 1 ∨ (0xFFFF : Nat) < 0x10000) := by omega
      simp only [maap_reserve_range, hinit, Bool.not_true, Bool.false_eq_true, if_false,
        hlen, if_true]
    · have hb : mc.initialized = false := by
        cases hmc : mc.initialized
        · rfl
        · exact absurd hmc hinit
      simp only [maap_reserve_range, hb, Bool.not_false, if_true]

/-- C2 witness: on the concrete initialized client M1 a reservation of 8
addresses returns id 1 = maxid + 1, and reserve of 0x10000 is rejected. -/
theorem C2_witness :
    (maap_reserve_range M1 1 8 0 [0] 0).2 = M1.maxid + 1 ∧
    (maap_reserve_range M1 1 0x10000 0 [0] 0).2 = -1 :=
  ⟨(C2_reserve_range.1 M1 1 8 0 [0] 0 256 (by decide) (by decide) (by decide) (by decide)
     (by decide)).1,
   C2_reserve_range.2.2 M1 1 0 [0] 0⟩

/-- C3: `maap_handle_packet` returns 0 exactly when the buffer is a MAAP
packet (full 42-byte packet with ethertype 0x22F0 and subtype 0xFE) and
-1 otherwise; a buffer with wrong ethertype returns -1 leaving the engine
untouched; a MAAP Probe whose requested range is disjoint from every
local range returns 0 and leaves the engine untouched. -/
theorem C3_handle_packet :
    (∀ (mc : Maap_Client) (stream : List Nat) (len : Nat),
      ((maap_handle_packet mc stream len).2 = 0 ↔
        (MAAP_PKT_SIZE ≤ len ∧ pkt_ethertype stream = MAAP_TYPE ∧
         pkt_subtype stream = MAAP_SUBTYPE))) ∧
    (∀ (mc : Maap_Client) (stream : List Nat) (len : Nat),
      pkt_ethertype stream ≠ MAAP_TYPE →
      (maap_handle_packet mc stream len).1 = mc ∧
      (maap_handle_packet mc stream len).2 = -1) ∧
    (∀ (mc : Maap_Client) (stream : List Nat) (len : Nat),
      MAAP_PKT_SIZE ≤ len → pkt_ethertype stream = MAAP_TYPE →
      pkt_subtype stream = MAAP_SUBTYPE →
      (decodePdu stream).message_type = MAAP_PROBE →
      (decodePdu stream).src_mac ≠ mc.src_mac →
      (∀ r ∈ mc.ranges, overlaps r.interval_low r.interval_high
        (decodePdu stream).req_start
        ((decodePdu stream).req_start + (decodePdu stream).req_count - 1) = false) →
      (maap_handle_packet mc stream len).1 = mc ∧
      (maap_handle_packet mc stream len).2 = 0) := by
  have heff : ∀ stream : List Nat, (decodePdu stream).message_type = MAAP_PROBE →
      pdu_eff (decodePdu stream) =
        ((decodePdu stream).req_start, (decodePdu stream).req_count) := by
    intro stream hm
    unfold pdu_eff
    rw [if_neg]
    rintro ⟨hc, _⟩
    rw [hm] at hc
    exact absurd hc (by decide)
  refine ⟨?_, ?_, ?_⟩
  · intro mc stream len
    have hgiff : (decide (MAAP_PKT_SIZE ≤ len) &&
        decide (pkt_ethertype stream = MAAP_TYPE) &&
        decide (pkt_subtype stream = MAAP_SUBTYPE)) = true ↔
        (MAAP_PKT_SIZE ≤ len ∧ pkt_ethertype stream = MAAP_TYPE ∧
         pkt_subtype stream = MAAP_SUBTYPE) := by
      simp [Bool.and_eq_true, decide_eq_true_iff, and_assoc]
    by_cases hg : (decide (MAAP_PKT_SIZE ≤ len) &&
        decide (pkt_ethertype stream = MAAP_TYPE) &&
        decide (pkt_subtype stream = MAAP_SUBTYPE)) = true
    · have hz : (maap_handle_packet mc stream len).2 = 0 := by
        simp only [maap_handle_packet, hg, Bool.not_true, Bool.false_eq_true, if_false]
        by_cases hsrc : (decodePdu stream).src_mac = mc.src_mac
        · rw [if_pos hsrc]
        · rw [if_neg hsrc]
      exact ⟨fun _ => hgiff.mp hg, fun _ => hz⟩
    · have hgf : (decide (MAAP_PKT_SIZE ≤ len) &&
          decide (pkt_ethertype stream = MAAP_TYPE) &&
          decide (pkt_subtype stream = MAAP_SUBTYPE)) = false := by
        revert hg
        cases (decide (MAAP_PKT_SIZE ≤ len) &&
          decide (pkt_ethertype stream = MAAP_TYPE) &&
          decide (pkt_subtype stream = MAAP_SUBTYPE))
        · intro _; rfl
        · intro hc; exact absurd rfl hc
      have hneg : (maap_handle_packet mc stream len).2 = -1 := by
        simp only [maap_handle_packet, hgf, Bool.not_false, if_true]
      constructor
      · intro h0
        rw [hneg] at h0
        exact absurd h0 (by decide)
      · intro hA
        exact absurd (hgiff.mpr hA) hg
  · intro mc stream len hety
    have hgf : (decide (MAAP_PKT_SIZE ≤ len) &&
        decide (pkt_ethertype stream = MAAP_TYPE) &&
        decide (pkt_subtype stream = MAAP_SUBTYPE)) = false := by
      simp [hety]
    simp only [maap_handle_packet, hgf, Bool.not_false, if_true]
    exact ⟨by trivial, by trivial⟩
  · intro mc stream len hlen hety hsub hm hsrc hov
    have hg : (decide (MAAP_PKT_SIZE ≤ len) &&
        decide (pkt_ethertype stream = MAAP_TYPE) &&
        decide (pkt_subtype stream = MAAP_SUBTYPE)) = true := by
      simp [hlen, hety, hsub]
    have hy : ∀ r ∈ mc.ranges,
        range_yields mc.src_mac (decodePdu stream) r = false := by
      intro r hr
      unfold range_yields range_overlaps_pdu
      rw [heff stream hm]
      by_cases hc : (decodePdu stream).req_count = 0
      · simp [hc]
      · simp [hc, hov r hr]
    have hd : ∀ r ∈ mc.ranges,
        range_defends mc.src_mac (decodePdu stream) r = false := by
      intro r hr
      unfold range_defends range_overlaps_pdu
      rw [heff stream hm]
      by_cases hc : (decodePdu stream).req_count = 0
      · simp [hc]
      · simp [hc, hov r hr]
    have hyl : mc.ranges.filter (range_yields mc.src_mac (decodePdu stream)) = [] := by
      rw [List.filter_eq_nil_iff]
      intro r hr
      simp [hy r hr]
    have hkeep : mc.ranges.filter
        (fun r => !(range_yields mc.src_mac (decodePdu stream) r)) = mc.ranges := by
      rw [List.filter_eq_self]
      intro r hr
      simp [hy r hr]
    have hdl : mc.ranges.filter (range_defends mc.src_mac (decodePdu stream)) = [] := by
      rw [List.filter_eq_nil_iff]
      intro r hr
      simp [hd r hr]
    simp only [maap_handle_packet, hg, Bool.not_true, Bool.false_eq_true, if_false,
      hsrc, if_neg, not_false_iff, hyl, hkeep, hdl]
    constructor
    · simp [idsOf]
    · trivial

/-- A concrete incoming MAAP Probe from MAC 7 for [300, 303], disjoint
from every range of M3. -/
def S_probe : List Nat :=
  encodePdu { dest_mac := MAAP_DEST_MAC, src_mac := 7, message_type := MAAP_PROBE,
              stream_id := 7, req_start := 300, req_count := 4,
              conflict_start := 0, conflict_count := 0 }

/-- C3 witness: a 42-byte all-zero buffer (wrong ethertype) gives -1 and
leaves M3 unchanged; the disjoint Probe gives 0 and leaves M3 unchanged. -/
theorem C3_witness :
    ((maap_handle_packet M3 (List.replicate 42 0) 42).1 = M3 ∧
     (maap_handle_packet M3 (List.replicate 42 0) 42).2 = -1) ∧
    ((maap_handle_packet M3 S_probe 42).1 = M3 ∧
     (maap_handle_packet M3 S_probe 42).2 = 0) :=
  ⟨C3_handle_packet.2.1 M3 (List.replicate 42 0) 42 (by decide),
   C3_handle_packet.2.2 M3 S_probe 42 (by decide) (by decide) (by decide) (by decide)
     (by decide) (by decide)⟩

/-- C1: in every reachable engine state, no two distinct locally-owned
ranges in Probing or Defending have overlapping intervals, and every
engine operation preserves this disjointness. -/
theorem C1_ranges_disjoint :
    (∀ mc : Maap_Client, Reachable mc →
      ∀ r1 ∈ mc.ranges, ∀ r2 ∈ mc.ranges, r1 ≠ r2 →
      (r1.state = Maap_State.MAAP_STATE_PROBING ∨
       r1.state = Maap_State.MAAP_STATE_DEFENDING) →
      (r2.state = Maap_State.MAAP_STATE_PROBING ∨
       r2.state = Maap_State.MAAP_STATE_DEFENDING) →
      overlaps r1.interval_low r1.interval_high r2.interval_low r2.interval_high = false) ∧
    (∀ mc mc' : Maap_Client, Reachable mc → Step mc mc' →
      ∀ r1 ∈ mc'.ranges, ∀ r2 ∈ mc'.ranges, r1 ≠ r2 →
      (r1.state = Maap_State.MAAP_STATE_PROBING ∨
       r1.state = Maap_State.MAAP_STATE_DEFENDING) →
      (r2.state = Maap_State.MAAP_STATE_PROBING ∨
       r2.state = Maap_State.MAAP_STATE_DEFENDING) →
      overlaps r1.interval_low r1.interval_high r2.interval_low r2.interval_high = false) := by
  have key : ∀ mc : Maap_Client, ClientInv mc →
      ∀ r1 ∈ mc.ranges, ∀ r2 ∈ mc.ranges, r1 ≠ r2 →
      overlaps r1.interval_low r1.interval_high r2.interval_low r2.interval_high = false := by
    intro mc h r1 h1 r2 h2 hne
    have hsym : Symmetric (fun a b : Range =>
        overlaps a.interval_low a.interval_high b.interval_low b.interval_high = false) := by
      intro a b hab
      rw [overlaps_comm]
      exact hab
    exact h.disjoint.forall hsym h1 h2 hne
  constructor
  · intro mc hre r1 h1 r2 h2 hne _ _
    exact key mc (reachable_inv hre) r1 h1 r2 h2 hne
  · intro mc mc' hre hs r1 h1 r2 h2 hne _ _
    exact key mc' (inv_step (reachable_inv hre) hs) r1 h1 r2 h2 hne

/-- C1 witness: the two live ranges of the reachable state M3 have
disjoint intervals [256, 263] and [264, 271]. -/
theorem C1_witness : overlaps 256 263 264 271 = false :=
  C1_ranges_disjoint.1 M3 reach_M3
    { id := 1, state := .MAAP_STATE_PROBING, counter := 3, next_act_time := 0,
      interval_low := 256, interval_high := 263, sender := 1 } (by decide)
    { id := 2, state := .MAAP_STATE_PROBING, counter := 3, next_act_time := 0,
      interval_low := 264, interval_high := 271, sender := 1 } (by decide)
    (by decide) (by decide) (by decide)

/-- C7: in every reachable state the timer queue is a permutation of the
ids of exactly the ranges in Probing or Defending, sorted ascending by
`next_act_time`; `maap_get_delay_to_next_timer` converts the head's
remaining milliseconds to nanoseconds and returns the very large sentinel
on an empty queue. -/
theorem C7_timer_queue :
    (∀ mc : Maap_Client, Reachable mc →
      List.Perm mc.timer_queue (idsOf (mc.ranges.filter (fun r =>
        decide (r.state = Maap_State.MAAP_STATE_PROBING) ||
        decide (r.state = Maap_State.MAAP_STATE_DEFENDING)))) ∧
      mc.timer_queue.Pairwise
        (fun a b => rangeTime mc.ranges a ≤ rangeTime mc.ranges b)) ∧
    (∀ (mc : Maap_Client) (now : Nat), mc.timer_queue = [] →
      maap_get_delay_to_next_timer mc now = MAAP_DELAY_SENTINEL) ∧
    (∀ (mc : Maap_Client) (now : Nat) (id : Int) (rest : List Int),
      mc.timer_queue = id :: rest →
      maap_get_delay_to_next_timer mc now =
        ((rangeTime mc.ranges id - now) * 1000000 : Nat)) := by
  refine ⟨?_, ?_, ?_⟩
  · intro mc hre
    have h := reachable_inv hre
    have hfil : mc.ranges.filter (fun r =>
        decide (r.state = Maap_State.MAAP_STATE_PROBING) ||
        decide (r.state = Maap_State.MAAP_STATE_DEFENDING)) = mc.ranges := by
      rw [List.filter_eq_self]
      intro r hr
      rcases h.states_pd r hr with h1 | h1 <;> simp [h1]
    rw [hfil]
    exact ⟨h.queue_perm, h.queue_sorted⟩
  · intro mc now hq
    simp [maap_get_delay_to_next_timer, hq]
  · intro mc now id rest hq
    simp [maap_get_delay_to_next_timer, hq]

/-- C7 witness: the queue of the reachable state M3 is the permutation
[1, 2] of its live range ids, and the delay helper returns the head's
delay (0 ns here) and the sentinel on the fresh empty client. -/
theorem C7_witness :
    (List.Perm M3.timer_queue (idsOf (M3.ranges.filter (fun r =>
        decide (r.state = Maap_State.MAAP_STATE_PROBING) ||
        decide (r.state = Maap_State.MAAP_STATE_DEFENDING)))) ∧
      M3.timer_queue.Pairwise
        (fun a b => rangeTime M3.ranges a ≤ rangeTime M3.ranges b)) ∧
    maap_get_delay_to_next_timer (initial_client 5) 0 = MAAP_DELAY_SENTINEL ∧
    maap_get_delay_to_next_timer M3 0 = ((rangeTime M3.ranges 1 - 0) * 1000000 : Nat) :=
  ⟨C7_timer_queue.1 M3 reach_M3,
   C7_timer_queue.2.1 (initial_client 5) 0 rfl,
   C7_timer_queue.2.2 M3 0 1 [2] (by decide)⟩

/-- C10: in every reachable state no live range carries the sentinel
state MAAP_STATE_INVALID (each is Probing, Defending or Released), all
range ids are positive, and across any engine step `maxid` never
decreases while every newly appearing range gets an id strictly above the
old `maxid`, so ids are never reused. -/
theorem C10_ids_and_states :
    (∀ mc : Maap_Client, Reachable mc → ∀ r ∈ mc.ranges,
      r.state ≠ Maap_State.MAAP_STATE_INVALID ∧
      (r.state = Maap_State.MAAP_STATE_PROBING ∨
       r.state = Maap_State.MAAP_STATE_DEFENDING ∨
       r.state = Maap_State.MAAP_STATE_RELEASED)) ∧
    (∀ mc : Maap_Client, Reachable mc → ∀ r ∈ mc.ranges, 0 < r.id) ∧
    (∀ mc mc' : Maap_Client, Reachable mc → Step mc mc' →
      mc.maxid ≤ mc'.maxid ∧
      ∀ r' ∈ mc'.ranges, r'.id ∉ idsOf mc.ranges → mc.maxid < r'.id) := by
  refine ⟨?_, ?_, ?_⟩
  · intro mc hre r hr
    have h := reachable_inv hre
    rcases h.states_pd r hr with h1 | h1
    · exact ⟨(by rw [h1]; intro hc; cases hc), Or.inl h1⟩
    · exact ⟨(by rw [h1]; intro hc; cases hc), Or.inr (Or.inl h1)⟩
  · intro mc hre r hr
    exact (reachable_inv hre).ids_pos r hr
  · intro mc mc' hre hs
    exact step_fresh (reachable_inv hre) hs

/-- C10 witness: the reachable state M3 has positive ids, no INVALID
state, and the step from M2 to M3 raises `maxid` from 1 to 2. -/
theorem C10_witness :
    (0 : Int) < 1 ∧
    ({ id := 1, state := Maap_State.MAAP_STATE_PROBING, counter := 3, next_act_time := 0,
       interval_low := 256, interval_high := 263, sender := 1 } : Range).state ≠
      Maap_State.MAAP_STATE_INVALID ∧
    M2.maxid ≤ (maap_reserve_range M2 1 8 0 [8] 0).1.maxid :=
  ⟨C10_ids_and_states.2.1 M3 reach_M3
     { id := 1, state := .MAAP_STATE_PROBING, counter := 3, next_act_time := 0,
       interval_low := 256, interval_high := 263, sender := 1 } (by decide),
   (C10_ids_and_states.1 M3 reach_M3
     { id := 1, state := .MAAP_STATE_PROBING, counter := 3, next_act_time := 0,
       interval_low := 256, interval_high := 263, sender := 1 } (by decide)).1,
   (C10_ids_and_states.2.2 M2 (maap_reserve_range M2 1 8 0 [8] 0).1 reach_M2
     (Step.reserve M2 1 8 0 [8] 0)).1⟩

/-- C4: a Probing range whose counter reached 0 at timer expiry
transitions to Defending, sends an Announce, is rescheduled
30000 + rnd mod 2000 ms later (a value in [30000, 32000)) and an ACQUIRED
notification is enqueued; while the counter is positive, expiry sends a
Probe, decrements the counter and reschedules 500 + rnd mod 100 ms later
(a value in [500, 600)); the counter starts at
MAAP_PROBE_RETRANSMITS = 3 on reservation. -/
theorem C4_probing_timer :
    (∀ (mc : Maap_Client) (now rnd : Nat) (id : Int) (rest : List Int) (rg : Range),
      mc.timer_queue = id :: rest →
      mc.ranges.find? (fun r => decide (r.id = id)) = some rg →
      rg.state = Maap_State.MAAP_STATE_PROBING → rg.counter = 0 →
      rg.next_act_time ≤ now →
      ∃ rg2 : Range,
        (maap_handle_timer mc now [rnd]).1.ranges.find?
          (fun r => decide (r.id = id)) = some rg2 ∧
        rg2.state = Maap_State.MAAP_STATE_DEFENDING ∧
        rg2.next_act_time = now + MAAP_ANNOUNCE_INTERVAL_BASE +
          rnd % MAAP_ANNOUNCE_INTERVAL_VARIATION ∧
        MAAP_ANNOUNCE_INTERVAL_BASE ≤ rg2.next_act_time - now ∧
        rg2.next_act_time - now <
          MAAP_ANNOUNCE_INTERVAL_BASE + MAAP_ANNOUNCE_INTERVAL_VARIATION ∧
        id ∈ (maap_handle_timer mc now [rnd]).1.timer_queue ∧
        (maap_handle_timer mc now [rnd]).1.sent =
          mc.sent ++ [mkPacket mc MAAP_ANNOUNCE rg2 0 0] ∧
        (mkPacket mc MAAP_ANNOUNCE rg2 0 0).message_type = MAAP_ANNOUNCE ∧
        (maap_handle_timer mc now [rnd]).1.notifies = mc.notifies ++
          [(rg.sender,
            Maap_Notify.MAAP_NOTIFY_ACQUIRED rg.id rg.interval_low (range_count rg))]) ∧
    (∀ (mc : Maap_Client) (now rnd : Nat) (id : Int) (rest : List Int) (rg : Range),
      mc.timer_queue = id :: rest →
      mc.ranges.find? (fun r => decide (r.id = id)) = some rg →
      rg.state = Maap_State.MAAP_STATE_PROBING → 0 < rg.counter →
      rg.next_act_time ≤ now →
      ∃ rg2 : Range,
        (maap_handle_timer mc now [rnd]).1.ranges.find?
          (fun r => decide (r.id = id)) = some rg2 ∧
        rg2.state = Maap_State.MAAP_STATE_PROBING ∧
        rg2.counter = rg.counter - 1 ∧
        rg2.next_act_time = now + MAAP_PROBE_INTERVAL_BASE +
          rnd % MAAP_PROBE_INTERVAL_VARIATION ∧
        MAAP_PROBE_INTERVAL_BASE ≤ rg2.next_act_time - now ∧
        rg2.next_act_time - now <
          MAAP_PROBE_INTERVAL_BASE + MAAP_PROBE_INTERVAL_VARIATION ∧
        id ∈ (maap_handle_timer mc now [rnd]).1.timer_queue ∧
        (maap_handle_timer mc now [rnd]).1.sent =
          mc.sent ++ [mkPacket mc MAAP_PROBE rg2 0 0] ∧
        (mkPacket mc MAAP_PROBE rg2 0 0).message_type = MAAP_PROBE ∧
        (maap_handle_timer mc now [rnd]).1.notifies = mc.notifies) ∧
    (MAAP_PROBE_RETRANSMITS = 3 ∧
     ∀ (mc : Maap_Client) (s len now : Nat) (tries : List Nat) (rd off : Nat),
       mc.initialized = true → 1 ≤ len → len ≤ 0xFFFF →
       find_free mc.address_base mc.range_len len mc.ranges tries = some off →
       ∃ r0 : Range, (maap_reserve_range mc s len now tries rd).1.ranges = r0 :: mc.ranges ∧
         r0.counter = MAAP_PROBE_RETRANSMITS) := by
  refine ⟨?_, ?_, rfl, ?_⟩
  · intro mc now rnd id rest rg hq hfind hst hcnt hexp
    have h1 : (maap_handle_timer mc now [rnd]).1 = timer_step mc now rnd := by
      show maap_handle_timer_aux now [rnd] mc = timer_step mc now rnd
      simp only [maap_handle_timer_aux, hq]
      rw [rangeTime_of_find? hfind, if_pos hexp]
    have hc0 : ¬(0 < rg.counter) := by omega
    have h2 : timer_step mc now rnd =
        { mc with
            ranges := mc.ranges.map (fun x => if x.id = id then
              { rg with state := Maap_State.MAAP_STATE_DEFENDING, counter := 0,
                        next_act_time := now + MAAP_ANNOUNCE_INTERVAL_BASE +
                          rnd % MAAP_ANNOUNCE_INTERVAL_VARIATION } else x),
            timer_queue := insertSorted (rangeTime (mc.ranges.map (fun x => if x.id = id then
              { rg with state := Maap_State.MAAP_STATE_DEFENDING, counter := 0,
                        next_act_time := now + MAAP_ANNOUNCE_INTERVAL_BASE +
                          rnd % MAAP_ANNOUNCE_INTERVAL_VARIATION } else x))) id rest,
            sent := mc.sent ++ [mkPacket mc MAAP_ANNOUNCE
              { rg with state := Maap_State.MAAP_STATE_DEFENDING, counter := 0,
                        next_act_time := now + MAAP_ANNOUNCE_INTERVAL_BASE +
                          rnd % MAAP_ANNOUNCE_INTERVAL_VARIATION } 0 0],
            notifies := mc.notifies ++ [(rg.sender,
              Maap_Notify.MAAP_NOTIFY_ACQUIRED rg.id rg.interval_low (range_count rg))] } := by
      simp only [timer_step, hq, hfind, hst]
      rw [if_pos hexp, if_neg hc0]
    obtain ⟨hrgid, _⟩ := find?_id_spec hfind
    rw [h1, h2]
    refine ⟨_, find?_update_self hfind hrgid, rfl, rfl, ?_, ?_, ?_, rfl, rfl, rfl⟩
    · show MAAP_ANNOUNCE_INTERVAL_BASE ≤
        now + MAAP_ANNOUNCE_INTERVAL_BASE + rnd % MAAP_ANNOUNCE_INTERVAL_VARIATION - now
      omega
    · show now + MAAP_ANNOUNCE_INTERVAL_BASE + rnd % MAAP_ANNOUNCE_INTERVAL_VARIATION - now <
        MAAP_ANNOUNCE_INTERVAL_BASE + MAAP_ANNOUNCE_INTERVAL_VARIATION
      have : rnd % MAAP_ANNOUNCE_INTERVAL_VARIATION < MAAP_ANNOUNCE_INTERVAL_VARIATION :=
        Nat.mod_lt rnd (by decide)
      omega
    · exact mem_insertSorted.mpr (Or.inl rfl)
  · intro mc now rnd id rest rg hq hfind hst hcnt hexp
    have h1 : (maap_handle_timer mc now [rnd]).1 = timer_step mc now rnd := by
      show maap_handle_timer_aux now [rnd] mc = timer_step mc now rnd
      simp only [maap_handle_timer_aux, hq]
      rw [rangeTime_of_find? hfind, if_pos hexp]
    have h2 : timer_step mc now rnd =
        { mc with
            ranges := mc.ranges.map (fun x => if x.id = id then
              { rg with counter := rg.counter - 1,
                        next_act_time := now + MAAP_PROBE_INTERVAL_BASE +
                          rnd % MAAP_PROBE_INTERVAL_VARIATION } else x),
            timer_queue := insertSorted (rangeTime (mc.ranges.map (fun x => if x.id = id then
              { rg with counter := rg.counter - 1,
                        next_act_time := now + MAAP_PROBE_INTERVAL_BASE +
                          rnd % MAAP_PROBE_INTERVAL_VARIATION } else x))) id rest,
            sent := mc.sent ++ [mkPacket mc MAAP_PROBE
              { rg with counter := rg.counter - 1,
                        next_act_time := now + MAAP_PROBE_INTERVAL_BASE +
                          rnd % MAAP_PROBE_INTERVAL_VARIATION } 0 0] } := by
      simp only [timer_step, hq, hfind, hst]
      rw [if_pos hexp, if_pos hcnt]
    obtain ⟨hrgid, _⟩ := find?_id_spec hfind
    rw [h1, h2]
    refine ⟨_, find?_update_self hfind hrgid, hst, rfl, rfl, ?_, ?_, ?_, rfl, rfl, rfl⟩
    · show MAAP_PROBE_INTERVAL_BASE ≤
        now + MAAP_PROBE_INTERVAL_BASE + rnd % MAAP_PROBE_INTERVAL_VARIATION - now
      omega
    · show now + MAAP_PROBE_INTERVAL_BASE + rnd % MAAP_PROBE_INTERVAL_VARIATION - now <
        MAAP_PROBE_INTERVAL_BASE + MAAP_PROBE_INTERVAL_VARIATION
      have : rnd % MAAP_PROBE_INTERVAL_VARIATION < MAAP_PROBE_INTERVAL_VARIATION :=
        Nat.mod_lt rnd (by decide)
      omega
    · exact mem_insertSorted.mpr (Or.inl rfl)
  · intro mc s len now tries rd off hinit h1 h2 hff
    have hlen : ¬(len < 1 ∨ 0xFFFF < len) := by omega
    simp only [maap_reserve_range, hinit, Bool.not_true, Bool.false_eq_true, if_false,
      hlen, hff]
    exact ⟨_, rfl, rfl⟩

/-- A concrete engine with one Probing range whose probe counter is
exhausted and whose timer expires at t = 100 ms. -/
def W0 : Maap_Client :=
  { dest_mac := MAAP_DEST_MAC, src_mac := 5, address_base := 256, range_len := 256,
    ranges := [{ id := 1, state := .MAAP_STATE_PROBING, counter := 0,
                 next_act_time := 100, interval_low := 256, interval_high := 263,
                 sender := 1 }],
    timer_queue := [1], maxid := 1, notifies := [], initialized := true, sent := [] }

/-- C4 witness: firing the expired timer of W0 enqueues the ACQUIRED
notification for id 1 and keeps id 1 scheduled. -/
theorem C4_witness :
    (maap_handle_timer W0 100 [0]).1.notifies =
      [(1, Maap_Notify.MAAP_NOTIFY_ACQUIRED 1 256 8)] ∧
    1 ∈ (maap_handle_timer W0 100 [0]).1.timer_queue := by
  obtain ⟨rg2, _, _, _, _, _, hqmem, _, _, hnot⟩ :=
    C4_probing_timer.1 W0 100 0 1 []
      { id := 1, state := .MAAP_STATE_PROBING, counter := 0, next_act_time := 100,
        interval_low := 256, interval_high := 263, sender := 1 }
      rfl (by decide) rfl rfl (by decide)
  exact ⟨hnot, hqmem⟩

/-- C5: a Defending range receiving an overlapping Announce arbitrates by
numeric stream-id comparison, lower id winning: if our stream id (the
source MAC) is lower, a Defend is sent and the range stays; if it is
higher, the range is removed from the interval tree and timer queue and a
YIELDED notification is enqueued (the Released state: the spec frees
Released ranges in the same call). -/
theorem C5_defend_arbitration :
    (∀ (mc : Maap_Client) (stream : List Nat) (len : Nat) (rg : Range),
      MAAP_PKT_SIZE ≤ len → pkt_ethertype stream = MAAP_TYPE →
      pkt_subtype stream = MAAP_SUBTYPE →
      (decodePdu stream).message_type = MAAP_ANNOUNCE →
      (decodePdu stream).src_mac ≠ mc.src_mac →
      rg ∈ mc.ranges → rg.state = Maap_State.MAAP_STATE_DEFENDING →
      (decodePdu stream).req_count ≠ 0 →
      overlaps rg.interval_low rg.interval_high (decodePdu stream).req_start
        ((decodePdu stream).req_start + (decodePdu stream).req_count - 1) = true →
      mc.src_mac < (decodePdu stream).stream_id →
      rg ∈ (maap_handle_packet mc stream len).1.ranges ∧
      mkDefend mc (decodePdu stream) rg ∈ (maap_handle_packet mc stream len).1.sent ∧
      (mkDefend mc (decodePdu stream) rg).message_type = MAAP_DEFEND ∧
      (maap_handle_packet mc stream len).2 = 0) ∧
    (∀ (mc : Maap_Client) (stream : List Nat) (len : Nat) (rg : Range),
      MAAP_PKT_SIZE ≤ len → pkt_ethertype stream = MAAP_TYPE →
      pkt_subtype stream = MAAP_SUBTYPE →
      (decodePdu stream).message_type = MAAP_ANNOUNCE →
      (decodePdu stream).src_mac ≠ mc.src_mac →
      rg ∈ mc.ranges → rg.state = Maap_State.MAAP_STATE_DEFENDING →
      (decodePdu stream).req_count ≠ 0 →
      overlaps rg.interval_low rg.interval_high (decodePdu stream).req_start
        ((decodePdu stream).req_start + (decodePdu stream).req_count - 1) = true →
      (decodePdu stream).stream_id < mc.src_mac →
      rg ∉ (maap_handle_packet mc stream len).1.ranges ∧
      (rg.sender, Maap_Notify.MAAP_NOTIFY_YIELDED rg.id rg.interval_low (range_count rg)) ∈
        (maap_handle_packet mc stream len).1.notifies ∧
      rg.id ∉ (maap_handle_packet mc stream len).1.timer_queue ∧
      (maap_handle_packet mc stream len).2 = 0) := by
  have heffA : ∀ stream : List Nat, (decodePdu stream).message_type = MAAP_ANNOUNCE →
      pdu_eff (decodePdu stream) =
        ((decodePdu stream).req_start, (decodePdu stream).req_count) := by
    intro stream hm
    unfold pdu_eff
    rw [if_neg]
    rintro ⟨hc, _⟩
    rw [hm] at hc
    exact absurd hc (by decide)
  constructor
  · intro mc stream len rg hlen hety hsub hm hsrc hrg hst hc hov hwin
    have hg : (decide (MAAP_PKT_SIZE ≤ len) &&
        decide (pkt_ethertype stream = MAAP_TYPE) &&
        decide (pkt_subtype stream = MAAP_SUBTYPE)) = true := by
      simp [hlen, hety, hsub]
    have hns : ¬((decodePdu stream).stream_id < mc.src_mac) := by omega
    have hy : range_yields mc.src_mac (decodePdu stream) rg = false := by
      unfold range_yields range_overlaps_pdu
      rw [heffA stream hm, hst]
      simp [hm, hns, MAAP_ANNOUNCE, MAAP_DEFEND]
    have hd : range_defends mc.src_mac (decodePdu stream) rg = true := by
      unfold range_defends range_overlaps_pdu
      rw [heffA stream hm]
      simp [hm, hst, hc, hov, hwin, MAAP_ANNOUNCE, MAAP_DEFEND, MAAP_PROBE]
    simp only [maap_handle_packet, hg, Bool.not_true, Bool.false_eq_true, if_false,
      hsrc, if_neg, not_false_iff]
    refine ⟨?_, ?_, rfl, trivial⟩
    · exact List.mem_filter.mpr ⟨hrg, by simp [hy]⟩
    · refine List.mem_append.mpr (Or.inr ?_)
      exact List.mem_map.mpr ⟨rg, List.mem_filter.mpr ⟨hrg, hd⟩, rfl⟩
  · intro mc stream len rg hlen hety hsub hm hsrc hrg hst hc hov hlose
    have hg : (decide (MAAP_PKT_SIZE ≤ len) &&
        decide (pkt_ethertype stream = MAAP_TYPE) &&
        decide (pkt_subtype stream = MAAP_SUBTYPE)) = true := by
      simp [hlen, hety, hsub]
    have hy : range_yields mc.src_mac (decodePdu stream) rg = true := by
      unfold range_yields range_overlaps_pdu
      rw [heffA stream hm, hst]
      simp [hm, hlose, hc, hov, MAAP_ANNOUNCE, MAAP_DEFEND]
    simp only [maap_handle_packet, hg, Bool.not_true, Bool.false_eq_true, if_false,
      hsrc, if_neg, not_false_iff]
    refine ⟨?_, ?_, ?_, trivial⟩
    · intro hcmem
      have := (List.mem_filter.mp hcmem).2
      rw [hy] at this
      exact absurd this (by decide)
    · refine List.mem_append.mpr (Or.inr ?_)
      exact List.mem_map.mpr ⟨rg, List.mem_filter.mpr ⟨hrg, hy⟩, rfl⟩
    · intro hcmem
      have h2 := (List.mem_filter.mp hcmem).2
      simp only [Bool.not_eq_true', decide_eq_false_iff_not] at h2
      exact h2 (mem_idsOf.mpr ⟨rg, List.mem_filter.mpr ⟨hrg, hy⟩, rfl⟩)

/-- A concrete engine (source MAC 5) defending the range [256, 263]. -/
def D0 : Maap_Client :=
  { dest_mac := MAAP_DEST_MAC, src_mac := 5, address_base := 256, range_len := 256,
    ranges := [{ id := 1, state := .MAAP_STATE_DEFENDING, counter := 0,
                 next_act_time := 50, interval_low := 256, interval_high := 263,
                 sender := 1 }],
    timer_queue := [1], maxid := 1, notifies := [], initialized := true, sent := [] }

/-- An Announce for [256, 263] from peer MAC 7 (stream id 7, higher than
ours: we win). -/
def S_ann_hi : List Nat :=
  encodePdu { dest_mac := MAAP_DEST_MAC, src_mac := 7, message_type := MAAP_ANNOUNCE,
              stream_id := 7, req_start := 256, req_count := 8,
              conflict_start := 0, conflict_count := 0 }

/-- An Announce for [256, 263] from peer MAC 3 (stream id 3, lower than
ours: we lose). -/
def S_ann_lo : List Nat :=
  encodePdu { dest_mac := MAAP_DEST_MAC, src_mac := 3, message_type := MAAP_ANNOUNCE,
              stream_id := 3, req_start := 256, req_count := 8,
              conflict_start := 0, conflict_count := 0 }

/-- C5 witness: against the higher peer D0 keeps its range and answers
with a Defend; against the lower peer D0 drops the range, dequeues its
timer and enqueues YIELDED. -/
theorem C5_witness :
    ({ id := 1, state := .MAAP_STATE_DEFENDING, counter := 0, next_act_time := 50,
       interval_low := 256, interval_high := 263, sender := 1 } : Range) ∈
      (maap_handle_packet D0 S_ann_hi 42).1.ranges ∧
    (maap_handle_packet D0 S_ann_hi 42).2 = 0 ∧
    ({ id := 1, state := .MAAP_STATE_DEFENDING, counter := 0, next_act_time := 50,
       interval_low := 256, interval_high := 263, sender := 1 } : Range) ∉
      (maap_handle_packet D0 S_ann_lo 42).1.ranges ∧
    (1, Maap_Notify.MAAP_NOTIFY_YIELDED 1 256 8) ∈
      (maap_handle_packet D0 S_ann_lo 42).1.notifies ∧
    (1 : Int) ∉ (maap_handle_packet D0 S_ann_lo 42).1.timer_queue := by
  have hwin := C5_defend_arbitration.1 D0 S_ann_hi 42
    { id := 1, state := .MAAP_STATE_DEFENDING, counter := 0, next_act_time := 50,
      interval_low := 256, interval_high := 263, sender := 1 }
    (by decide) (by decide) (by decide) (by decide) (by decide) (by decide) rfl
    (by decide) (by decide) (by decide)
  have hlose := C5_defend_arbitration.2 D0 S_ann_lo 42
    { id := 1, state := .MAAP_STATE_DEFENDING, counter := 0, next_act_time := 50,
      interval_low := 256, interval_high := 263, sender := 1 }
    (by decide) (by decide) (by decide) (by decide) (by decide) (by decide) rfl
    (by decide) (by decide) (by decide)
  exact ⟨hwin.1, hwin.2.2.2, hlose.1, hlose.2.1, hlose.2.2.1⟩
